import Mathlib

/-!
Verification development for the adapter discovery and lifecycle engine
(`AdapterFactory` in the JavaScript source) and the `Characteristic` value
object.  The JavaScript code is shallowly embedded: JS objects used as string
keyed maps become insertion-ordered association lists, `undefined` becomes
`Option`, thrown exceptions become `Except` error results, the event emitter
becomes an accumulated list of events, and JS object identity for freshly
constructed handles is modelled by threading an allocation counter whose value
is stored in each handle (`ref`).
-/

set_option maxHeartbeats 1000000

namespace PcBleDriver

/-- A raw device descriptor as reported by the driver layer.  Fields that may
be `undefined` in JS are `Option`s.  (Source: the `adapter` objects consumed by
`AdapterFactory._getInstanceId` / `_parseAndCreateAdapter`.) -/
structure RawDeviceDescriptor where
  serialNumber : Option String
  comName : Option String
  manufacturer : Option String
deriving DecidableEq

/-- The engine's logical adapter handle, mirroring
`new Adapter(selectedDriver, addOnAdapter, instanceId, adapter.comName, adapter.serialNumber, notSupportedMessage)`.
`driver` is the selected driver generation tag (the JS code indexes
`this._bleDrivers` with it).  `ref` models JS object identity: each `new`
consumes one fresh allocation number. -/
structure Adapter where
  driver : String
  instanceId : Option String
  comName : Option String
  serialNumber : Option String
  notSupportedMessage : Option String
  ref : Nat
deriving DecidableEq

/-- Events emitted on the factory's event stream (`this.emit(...)`). -/
inductive FactoryEvent
  | error (msg : String)
  | added (a : Adapter)
  | removed (a : Adapter)
  | adapterOpened (a : Adapter)
  | adapterClosed (a : Adapter)
deriving DecidableEq

/-- JS string coercion of a possibly-`undefined` string value: `undefined`
turns into the string "undefined" when used as a property key or regex input. -/
def jsStr : Option String → String
  | some s => s
  | none => "undefined"

/-- JS truthiness of a possibly-`undefined` string (`""` is falsy). -/
def truthyStr : Option String → Bool
  | some s => !s.isEmpty
  | none => false

/-- `AdapterFactory._getInstanceId` (lines 94-105): serial number if truthy,
else com name if truthy, else `undefined`. -/
def getInstanceId (a : RawDeviceDescriptor) : Option String :=
  if truthyStr a.serialNumber then a.serialNumber
  else if truthyStr a.comName then a.comName
  else none

/-- Events emitted by a call to `_getInstanceId`: in the fall-through case the
factory emits an `error` event before returning `undefined`. -/
def getInstanceIdEvents (a : RawDeviceDescriptor) : List FactoryEvent :=
  if truthyStr a.serialNumber then []
  else if truthyStr a.comName then []
  else [.error "Failed to get adapter instanceId"]

/-- Characters matched by an unflagged JS regex `.`: anything except the four
line terminators. -/
def isJsDotChar (c : Char) : Bool :=
  !(c == '\n' || c == '\r' || c.toNat == 8232 || c.toNat == 8233)

/-- The character class `[0-3]` of the Segger pattern. -/
def isKitDigit (c : Char) : Bool :=
  c == '0' || c == '1' || c == '2' || c == '3'

/-- The character class `[0-9]`. -/
def isAsciiDigit (c : Char) : Bool :=
  '0' ≤ c && c ≤ '9'

/-- Model of `/^.*68([0-3]{1})[0-9]{6}$/` applied to a string: because the
suffix after `.*` has the fixed length 9, the regex matches exactly when the
last nine characters are `6`, `8`, a digit in `[0-3]` and six digits, and all
preceding characters are matchable by `.`.  Returns the captured digit
(`exec(...)[1]`), so `test` is its `isSome`. -/
def seggerExec (s : String) : Option Char :=
  if (s.data.take (s.data.length - 9)).all isJsDotChar then
    match s.data.drop (s.data.length - 9) with
    | [c1, c2, d, x1, x2, x3, x4, x5, x6] =>
        if c1 == '6' && c2 == '8' && isKitDigit d &&
           isAsciiDigit x1 && isAsciiDigit x2 && isAsciiDigit x3 &&
           isAsciiDigit x4 && isAsciiDigit x5 && isAsciiDigit x6
        then some d else none
    | _ => none
  else none

/-- The `switch (developmentKit)` table of `_parseAndCreateAdapter`:
cases 0 and 1 select `'v2'`, cases 2 and 3 select `'v3'`, the default case
throws (modelled as `none`). -/
def sdVersionFor : Nat → Option String
  | 0 => some "v2"
  | 1 => some "v2"
  | 2 => some "v3"
  | 3 => some "v3"
  | _ => none

/-- The platform advisory table (lines 148-152); `os.platform()` is passed in
as `platform`.  The JS comparisons use strict equality, so an `undefined`
manufacturer matches neither branch. -/
def notSupportedMessageFor (platform : String) (manufacturer : Option String) : Option String :=
  if platform == "darwin" && manufacturer == some "MBED" then
    some "This adapter with mbed CMSIS firmware is currently not supported on OS X. Please visit www.nordicsemi.com/nRFConnectOSXfix for further instructions."
  else if platform == "darwin" && manufacturer == some "SEGGER" then
    some "Note: Adapters with Segger JLink debug probe requires MSD to be disabled to function properly on OSX. Please visit www.nordicsemi.com/nRFConnectOSXfix for further instructions."
  else none

/-- `AdapterFactory._parseAndCreateAdapter` (lines 107-155).  Returns the
events emitted during the call (the inner `_getInstanceId` call may emit one)
together with either the constructed handle and the bumped allocation counter,
or the message of the thrown `Error`.  `parseInt(match[1], 10)` on the captured
digit character is `d.toNat - 48`. -/
def parseAndCreateAdapter (platform : String) (alloc : Nat) (a : RawDeviceDescriptor) :
    List FactoryEvent × Except String (Adapter × Nat) :=
  let instanceId := getInstanceId a
  let evs := getInstanceIdEvents a
  match seggerExec (jsStr instanceId) with
  | some d =>
      match sdVersionFor (d.toNat - 48) with
      | some sdVersion =>
          (evs, .ok ({ driver := sdVersion
                       instanceId := instanceId
                       comName := a.comName
                       serialNumber := a.serialNumber
                       notSupportedMessage := notSupportedMessageFor platform a.manufacturer
                       ref := alloc }, alloc + 1))
      | none => (evs, .error "Unsupported nRF5 development kit.")
  | none => (evs, .error "Not able to determine version of pc-ble-driver to use.")

/-- Whether `_parseAndCreateAdapter` succeeds on this descriptor (independent
of the platform and of the allocation counter). -/
def classifyOk (a : RawDeviceDescriptor) : Bool :=
  match seggerExec (jsStr (getInstanceId a)) with
  | some d => (sdVersionFor (d.toNat - 48)).isSome
  | none => false

/-! ## The registry: association-list model of the JS object `this._adapters` -/

/-- Keyed lookup in an insertion-ordered association list (JS property read). -/
def lookupA (m : List (String × Adapter)) (k : String) : Option Adapter :=
  match m with
  | [] => none
  | kv :: rest => if kv.1 == k then some kv.2 else lookupA rest k

/-- Keyed deletion (JS `delete obj[k]`). -/
def eraseKeyA (m : List (String × Adapter)) (k : String) : List (String × Adapter) :=
  m.filter (fun kv => !(kv.1 == k))

/-- The key set (in insertion order) of the mapping. -/
def keysOf (m : List (String × Adapter)) : List String :=
  m.map Prod.fst

/-- The mutable state of the `AdapterFactory` relevant to reconciliation:
the `this._adapters` mapping, the allocation counter modelling `new`, and the
identities of the handles whose `opened` / `closed` notifications are
currently wired to the engine's public stream
(`_setUpListenersForAdapterOpenAndClose`). -/
structure FactoryState where
  adapters : List (String × Adapter)
  alloc : Nat
  openedSubs : List Nat
  closedSubs : List Nat
deriving DecidableEq

def initialFactoryState : FactoryState :=
  { adapters := [], alloc := 0, openedSubs := [], closedSubs := [] }

/-- The `for (let adapter of adapters)` loop of `_updateAdapterList`
(lines 172-186).  `removed` is the local `removedAdapters` snapshot being
whittled down; the `Except` error case models the uncaught exception thrown by
`_parseAndCreateAdapter`, which aborts the rest of the callback body (the
state mutations already performed remain). -/
def processLoop (platform : String) :
    List RawDeviceDescriptor → FactoryState → List (String × Adapter) → List FactoryEvent →
    Except (FactoryState × List FactoryEvent)
      (FactoryState × List (String × Adapter) × List FactoryEvent)
  | [], st, removed, evs => .ok (st, removed, evs)
  | a :: rest, st, removed, evs =>
      let key := jsStr (getInstanceId a)
      let evs1 := getInstanceIdEvents a
      let removed1 := if (lookupA st.adapters key).isSome then eraseKeyA removed key else removed
      match parseAndCreateAdapter platform st.alloc a with
      | (evs2, .error _) => .error (st, evs ++ evs1 ++ evs2)
      | (evs2, .ok (newAdapter, alloc')) =>
          if (lookupA st.adapters key).isSome then
            processLoop platform rest { st with alloc := alloc' } removed1 (evs ++ evs1 ++ evs2)
          else
            processLoop platform rest
              { st with adapters := st.adapters ++ [(key, newAdapter)]
                        alloc := alloc'
                        openedSubs := st.openedSubs ++ [newAdapter.ref]
                        closedSubs := st.closedSubs ++ [newAdapter.ref] }
              removed1 (evs ++ evs1 ++ evs2 ++ [.added newAdapter])

/-- The `for (let adapterId in removedAdapters)` loop (lines 188-193).  Only
the `opened` listener of a removed handle is detached
(`removedAdapter.removeAllListeners('opened')`); the `closed` subscription is
left in place.  The `Except` error case models the `TypeError` JS would raise
if the looked-up key were absent; it is unreachable from reachable states. -/
def removalLoop :
    List (String × Adapter) → FactoryState → List FactoryEvent →
    Except (FactoryState × List FactoryEvent) (FactoryState × List FactoryEvent)
  | [], st, evs => .ok (st, evs)
  | (k, _) :: rest, st, evs =>
      match lookupA st.adapters k with
      | some removedAdapter =>
          removalLoop rest
            { st with adapters := eraseKeyA st.adapters k
                      openedSubs := st.openedSubs.filter (fun r => !(r == removedAdapter.ref)) }
            (evs ++ [.removed removedAdapter])
      | none => .error (st, evs)

/-- Result of the driver-layer enumeration call
(`this._bleDrivers.v2.getAdapters(...)`). -/
inductive EnumResult
  | err (msg : String)
  | ok (devices : List RawDeviceDescriptor)
deriving DecidableEq

/-- A recorded invocation of the completion callback passed to
`_updateAdapterList`: either `callback(err)` or
`callback(undefined, this._adapters)`. -/
inductive CallbackCall
  | withError (msg : String)
  | withAdapters (m : List (String × Adapter))
deriving DecidableEq

/-- Observable outcome of one `_updateAdapterList` cycle.  `aborted` records
that an exception escaped the enumeration callback. -/
structure UpdateResult where
  state : FactoryState
  events : List FactoryEvent
  callbacks : List CallbackCall
  aborted : Bool
deriving DecidableEq

/-- `AdapterFactory._updateAdapterList` (lines 157-199), with the result of
the asynchronous enumeration supplied as `enum` and the presence of a
completion callback as `hasCallback`. -/
def updateAdapterList (platform : String) (st : FactoryState) (enum : EnumResult)
    (hasCallback : Bool) : UpdateResult :=
  match enum with
  | .err e =>
      { state := st
        events := [.error e]
        callbacks := if hasCallback then [.withError e] else []
        aborted := false }
  | .ok devices =>
      match processLoop platform devices st st.adapters [] with
      | .error (st', evs) => { state := st', events := evs, callbacks := [], aborted := true }
      | .ok (st', removedLeft, evs) =>
          match removalLoop removedLeft st' evs with
          | .error (st'', evs') =>
              { state := st'', events := evs', callbacks := [], aborted := true }
          | .ok (st'', evs') =>
              { state := st''
                events := evs'
                callbacks := if hasCallback then [.withAdapters st''.adapters] else []
                aborted := false }

/-- A sequence of reconcile passes (timer ticks and on-demand calls). -/
def runPasses (platform : String) : List (EnumResult × Bool) → FactoryState → FactoryState
  | [], st => st
  | (e, cb) :: rest, st => runPasses platform rest (updateAdapterList platform st e cb).state

/-- Engine-level events produced when the handle with identity `h.ref` emits
its own `opened` notification: one `adapterOpened` re-emission per live
subscription (`_setUpListenersForAdapterOpenAndClose`, line 202). -/
def emitOpenedFromHandle (st : FactoryState) (h : Adapter) : List FactoryEvent :=
  (st.openedSubs.filter (fun r => r == h.ref)).map (fun _ => FactoryEvent.adapterOpened h)

/-- Engine-level events produced when the handle with identity `h.ref` emits
its own `closed` notification (line 205). -/
def emitClosedFromHandle (st : FactoryState) (h : Adapter) : List FactoryEvent :=
  (st.closedSubs.filter (fun r => r == h.ref)).map (fun _ => FactoryEvent.adapterClosed h)

def isAddedEv : FactoryEvent → Bool
  | .added _ => true
  | _ => false

def isRemovedEv : FactoryEvent → Bool
  | .removed _ => true
  | _ => false

/-- The handle a successful `_parseAndCreateAdapter` call constructs, given
the selected driver generation `v` (abbreviation used by the lemmas below;
definitionally the record produced in `parseAndCreateAdapter`). -/
def mkHandle (platform v : String) (alloc : Nat) (a : RawDeviceDescriptor) : Adapter :=
  { driver := v
    instanceId := getInstanceId a
    comName := a.comName
    serialNumber := a.serialNumber
    notSupportedMessage := notSupportedMessageFor platform a.manufacturer
    ref := alloc }

/-! ## Step lemmas for the reconcile loops -/

/-- State component of either outcome of `processLoop`. -/
def outState (r : Except (FactoryState × List FactoryEvent)
    (FactoryState × List (String × Adapter) × List FactoryEvent)) : FactoryState :=
  match r with
  | .ok (st, _, _) => st
  | .error (st, _) => st

/-- Event component of either outcome of `processLoop`. -/
def outEvs (r : Except (FactoryState × List FactoryEvent)
    (FactoryState × List (String × Adapter) × List FactoryEvent)) : List FactoryEvent :=
  match r with
  | .ok (_, _, e) => e
  | .error (_, e) => e

/-- Both outcomes of `removalLoop` as a pair. -/
def out2 (r : Except (FactoryState × List FactoryEvent) (FactoryState × List FactoryEvent)) :
    FactoryState × List FactoryEvent :=
  match r with
  | .ok x => x
  | .error x => x

/-- The handle created for serial number `680123456` from the empty initial
state (first allocation). -/
def sampleHandle : Adapter :=
  ⟨"v2", some "680123456", none, some "680123456", none, 0⟩

/-- The factory state reached from the initial state by one reconcile pass
that enumerates exactly the descriptor with serial number `680123456`
(see `sampleState_reachable`). -/
def sampleState : FactoryState :=
  { adapters := [("680123456", sampleHandle)]
    alloc := 1
    openedSubs := [0]
    closedSubs := [0] }

/-! ## The singleton construction gate (`_singleton`, constructor,
`getInstance`; lines 50, 65-89) -/

/-- Model of the module-private `let _singleton = Symbol()` token.  Tokens
are natural numbers; this designated value is not nameable outside the
module, so "constructing without the private token" is constructing with any
other token value. -/
def _singleton : Nat := 0

/-- A constructed `AdapterFactory` object, identified by its allocation
number (JS object identity).  The injected `bleDrivers` map plays no role in
the construction gate and is omitted. -/
structure FactoryInstance where
  objId : Nat
deriving DecidableEq

/-- The constructor guard (lines 65-67):
`if (_singleton !== singletonToken) throw new Error('Cannot instantiate directly.')`. -/
def adapterFactoryConstructor (singletonToken : Nat) (freshId : Nat) :
    Except String FactoryInstance :=
  if _singleton ≠ singletonToken then .error "Cannot instantiate directly."
  else .ok ⟨freshId⟩

/-- The static slot `this[_singleton]` caching the instance, together with
the object allocator. -/
structure SingletonState where
  stored : Option FactoryInstance
  nextId : Nat
deriving DecidableEq

/-- `AdapterFactory.getInstance` (lines 81-89): construct and cache the
instance on the first call, return the cached instance on every later call. -/
def getInstance (s : SingletonState) : Except String (FactoryInstance × SingletonState) :=
  match s.stored with
  | some inst => .ok (inst, s)
  | none =>
      match adapterFactoryConstructor _singleton s.nextId with
      | .ok inst => .ok (inst, { stored := some inst, nextId := s.nextId + 1 })
      | .error e => .error e

/-! ## The `Characteristic` value object (src/api/characteristic.js) -/

/-- Decimal digit character for `d < 10`. -/
def digitChar (d : Nat) : Char := Char.ofNat (48 + d)

/-- Big-endian decimal digit list of a natural number: model of the JS
`Number.prototype.toString` (radix 10) for the integer counter values. -/
def natDigits (n : Nat) : List Char :=
  if n < 10 then [digitChar n]
  else natDigits (n / 10) ++ [digitChar (n % 10)]
decreasing_by omega

def natToString (n : Nat) : String := ⟨natDigits n⟩

/-- One `Characteristic` object; `properties` and `value` are opaque
payloads.  The constructor writes `null` into `_name` through the `name`
setter. -/
structure Characteristic (α β : Type) where
  _instanceId : String
  _serviceInstanceId : String
  uuid : String
  _name : Option String
  properties : α
  value : β

/-- The module-global counter `var i = 1`. -/
def characteristicCounterInit : Nat := 1

/-- The `Characteristic` constructor:
`this._instanceId = serviceInstanceId + '.' + (i++).toString()` — the current
counter value is used and the counter is incremented. -/
def mkCharacteristic {α β : Type} (i : Nat) (serviceInstanceId uuid : String)
    (properties : α) (value : β) : Characteristic α β × Nat :=
  ({ _instanceId := serviceInstanceId ++ "." ++ natToString i
     _serviceInstanceId := serviceInstanceId
     uuid := uuid
     _name := none
     properties := properties
     value := value }, i + 1)

/-- The `name` getter: `_name` if truthy, else the uuid. -/
def Characteristic.nameGet {α β : Type} (c : Characteristic α β) : String :=
  match c._name with
  | some s => if s.isEmpty then c.uuid else s
  | none => c.uuid

/-- A whole construction history: each request is
(serviceInstanceId, uuid, properties, value), threaded through the global
counter. -/
def buildCharacteristics {α β : Type} :
    List (String × String × α × β) → Nat → List (Characteristic α β)
  | [], _ => []
  | (svc, u, p, v) :: rest, i =>
      (mkCharacteristic i svc u p v).1 ::
        buildCharacteristics rest (mkCharacteristic i svc u p v).2

def decodeDigits (l : List Char) : Nat :=
  l.foldl (fun acc c => acc * 10 + (c.toNat - 48)) 0


/-! ## Basic lemmas about the association-list operations -/

theorem keysOf_nil : keysOf [] = [] := rfl

theorem keysOf_cons (kv : String × Adapter) (m : List (String × Adapter)) :
    keysOf (kv :: m) = kv.1 :: keysOf m := rfl

theorem keysOf_append (m t : List (String × Adapter)) :
    keysOf (m ++ t) = keysOf m ++ keysOf t :=
  List.map_append _ _ _

theorem lookupA_isSome_iff (m : List (String × Adapter)) (k : String) :
    (lookupA m k).isSome = true ↔ k ∈ keysOf m := by
  induction m with
  | nil => simp [lookupA, keysOf]
  | cons kv rest ih =>
      simp only [lookupA, keysOf_cons, List.mem_cons]
      by_cases h : kv.1 = k
      · simp [h]
      · rw [if_neg (by simp [h])]
        rw [ih]
        constructor
        · exact fun hm => Or.inr hm
        · rintro (hk | hm)
          · exact absurd hk.symm h
          · exact hm

theorem lookupA_eq_none_iff (m : List (String × Adapter)) (k : String) :
    lookupA m k = none ↔ k ∉ keysOf m := by
  rw [← lookupA_isSome_iff]
  cases lookupA m k <;> simp

theorem mem_keysOf_of_lookupA (m : List (String × Adapter)) (k : String) (v : Adapter)
    (h : lookupA m k = some v) : k ∈ keysOf m := by
  rw [← lookupA_isSome_iff, h]; rfl

theorem lookupA_append_of_some (m t : List (String × Adapter)) (k : String) (v : Adapter)
    (h : lookupA m k = some v) : lookupA (m ++ t) k = some v := by
  induction m with
  | nil => simp [lookupA] at h
  | cons kv rest ih =>
      simp only [lookupA, List.cons_append] at *
      by_cases hk : kv.1 = k
      · simpa [hk] using h
      · simp only [beq_iff_eq, if_neg hk] at h ⊢
        exact ih h

theorem eraseKeyA_cons (kv : String × Adapter) (rest : List (String × Adapter)) (k : String) :
    eraseKeyA (kv :: rest) k =
      if kv.1 = k then eraseKeyA rest k else kv :: eraseKeyA rest k := by
  unfold eraseKeyA
  rw [List.filter_cons]
  by_cases h : kv.1 = k
  · simp [h]
  · simp [h]

theorem keysOf_eraseKeyA (m : List (String × Adapter)) (k : String) :
    keysOf (eraseKeyA m k) = (keysOf m).filter (fun x => !(x == k)) := by
  induction m with
  | nil => rfl
  | cons kv rest ih =>
      rw [eraseKeyA_cons, keysOf_cons, List.filter_cons]
      by_cases h : kv.1 = k
      · simp [h, ih]
      · simp [h, ih, keysOf_cons]

theorem mem_keysOf_eraseKeyA (m : List (String × Adapter)) (k x : String) :
    x ∈ keysOf (eraseKeyA m k) ↔ x ∈ keysOf m ∧ x ≠ k := by
  rw [keysOf_eraseKeyA, List.mem_filter]
  simp

theorem lookupA_eraseKeyA_ne (m : List (String × Adapter)) (k x : String) (h : x ≠ k) :
    lookupA (eraseKeyA m k) x = lookupA m x := by
  induction m with
  | nil => rfl
  | cons kv rest ih =>
      rw [eraseKeyA_cons]
      by_cases hk : kv.1 = k
      · rw [if_pos hk, ih]
        have hx : ¬kv.1 = x := fun hh => h (by rw [← hh, hk])
        simp only [lookupA]
        rw [if_neg (by simp [hx])]
      · rw [if_neg hk]
        simp only [lookupA]
        by_cases hx : kv.1 = x
        · simp [hx]
        · rw [if_neg (by simp [hx]), if_neg (by simp [hx]), ih]

theorem nodup_keysOf_eraseKeyA (m : List (String × Adapter)) (k : String)
    (h : (keysOf m).Nodup) : (keysOf (eraseKeyA m k)).Nodup := by
  rw [keysOf_eraseKeyA]
  exact h.filter _

/-! ## Lemmas about the classifier -/

theorem isSome_of_truthy (o : Option String) (h : truthyStr o = true) : o.isSome = true := by
  cases o <;> simp [truthyStr] at *

theorem getInstanceIdEvents_of_isSome (a : RawDeviceDescriptor)
    (h : (getInstanceId a).isSome = true) : getInstanceIdEvents a = [] := by
  unfold getInstanceId getInstanceIdEvents at *
  by_cases h1 : truthyStr a.serialNumber = true
  · simp [h1]
  · by_cases h2 : truthyStr a.comName = true
    · simp [h1, h2]
    · simp [h1, h2] at h

theorem getInstanceIdEvents_of_none (a : RawDeviceDescriptor)
    (h : getInstanceId a = none) :
    getInstanceIdEvents a = [.error "Failed to get adapter instanceId"] := by
  unfold getInstanceId at h
  unfold getInstanceIdEvents
  by_cases h1 : truthyStr a.serialNumber = true
  · rw [if_pos h1] at h
    have h3 := isSome_of_truthy _ h1
    rw [h] at h3
    simp at h3
  · by_cases h2 : truthyStr a.comName = true
    · rw [if_neg h1, if_pos h2] at h
      have h3 := isSome_of_truthy _ h2
      rw [h] at h3
      simp at h3
    · simp [h1, h2]

theorem seggerExec_undefined : seggerExec "undefined" = none := by decide

theorem seggerExec_isKitDigit (s : String) (d : Char) (h : seggerExec s = some d) :
    isKitDigit d = true := by
  unfold seggerExec at h
  split at h
  · split at h
    · split at h
      · rename_i hguard
        simp only [Bool.and_eq_true] at hguard
        cases h
        exact hguard.1.1.1.1.1.1.2
      · exact absurd h (by simp)
    · exact absurd h (by simp)
  · exact absurd h (by simp)

theorem getInstanceId_isSome_of_classifyOk (a : RawDeviceDescriptor)
    (h : classifyOk a = true) : (getInstanceId a).isSome = true := by
  cases hid : getInstanceId a with
  | some s => rfl
  | none =>
      unfold classifyOk at h
      rw [hid] at h
      simp only [jsStr] at h
      rw [seggerExec_undefined] at h
      simp at h

theorem classifyOk_true_parse (platform : String) (alloc : Nat) (a : RawDeviceDescriptor)
    (h : classifyOk a = true) :
    ∃ v : String,
      parseAndCreateAdapter platform alloc a =
        ([], .ok ({ driver := v
                    instanceId := getInstanceId a
                    comName := a.comName
                    serialNumber := a.serialNumber
                    notSupportedMessage := notSupportedMessageFor platform a.manufacturer
                    ref := alloc }, alloc + 1)) := by
  have hsome := getInstanceId_isSome_of_classifyOk a h
  cases hseg : seggerExec (jsStr (getInstanceId a)) with
  | none => simp [classifyOk, hseg] at h
  | some d =>
      cases hsd : sdVersionFor (d.toNat - 48) with
      | none => simp [classifyOk, hseg, hsd] at h
      | some v =>
          refine ⟨v, ?_⟩
          simp only [parseAndCreateAdapter, hseg, hsd]
          rw [getInstanceIdEvents_of_isSome a hsome]

theorem classifyOk_false_parse (platform : String) (alloc : Nat) (a : RawDeviceDescriptor)
    (h : classifyOk a = false) :
    ∃ msg, parseAndCreateAdapter platform alloc a = (getInstanceIdEvents a, .error msg) := by
  cases hseg : seggerExec (jsStr (getInstanceId a)) with
  | none =>
      refine ⟨"Not able to determine version of pc-ble-driver to use.", ?_⟩
      simp only [parseAndCreateAdapter, hseg]
  | some d =>
      cases hsd : sdVersionFor (d.toNat - 48) with
      | some v => simp [classifyOk, hseg, hsd] at h
      | none =>
          refine ⟨"Unsupported nRF5 development kit.", ?_⟩
          simp only [parseAndCreateAdapter, hseg, hsd]


theorem processLoop_cons_err (platform : String) (a : RawDeviceDescriptor)
    (rest : List RawDeviceDescriptor) (st : FactoryState) (removed : List (String × Adapter))
    (evs : List FactoryEvent) (hca : classifyOk a = false) :
    processLoop platform (a :: rest) st removed evs =
      .error (st, evs ++ getInstanceIdEvents a ++ getInstanceIdEvents a) := by
  obtain ⟨msg, hp⟩ := classifyOk_false_parse platform st.alloc a hca
  simp only [processLoop, hp]

theorem processLoop_cons_ok (platform : String) (a : RawDeviceDescriptor)
    (rest : List RawDeviceDescriptor) (st : FactoryState) (removed : List (String × Adapter))
    (evs : List FactoryEvent) (hca : classifyOk a = true) :
    ∃ v : String,
      processLoop platform (a :: rest) st removed evs =
        if (lookupA st.adapters (jsStr (getInstanceId a))).isSome then
          processLoop platform rest { st with alloc := st.alloc + 1 }
            (eraseKeyA removed (jsStr (getInstanceId a))) evs
        else
          processLoop platform rest
            { st with
                adapters := st.adapters ++
                  [(jsStr (getInstanceId a), mkHandle platform v st.alloc a)]
                alloc := st.alloc + 1
                openedSubs := st.openedSubs ++ [st.alloc]
                closedSubs := st.closedSubs ++ [st.alloc] }
            removed (evs ++ [.added (mkHandle platform v st.alloc a)]) := by
  obtain ⟨v, hp⟩ := classifyOk_true_parse platform st.alloc a hca
  have hevs := getInstanceIdEvents_of_isSome a (getInstanceId_isSome_of_classifyOk a hca)
  refine ⟨v, ?_⟩
  simp only [processLoop, hp, hevs, List.append_nil, mkHandle]
  by_cases hl : (lookupA st.adapters (jsStr (getInstanceId a))).isSome = true
  · simp [hl]
  · simp [hl]

/-! ## Structural lemmas about `processLoop` -/

theorem processLoop_adapters_mono (platform : String) (list : List RawDeviceDescriptor) :
    ∀ (st : FactoryState) (removed : List (String × Adapter)) (evs : List FactoryEvent),
      ∃ tail,
        (outState (processLoop platform list st removed evs)).adapters =
          st.adapters ++ tail ∧
        ∀ k ∈ keysOf tail, ∃ a, a ∈ list ∧ jsStr (getInstanceId a) = k := by
  induction list with
  | nil =>
      intro st removed evs
      exact ⟨[], by simp [processLoop, outState], by simp [keysOf]⟩
  | cons a rest ih =>
      intro st removed evs
      by_cases hca : classifyOk a = true
      · obtain ⟨v, hstep⟩ := processLoop_cons_ok platform a rest st removed evs hca
        rw [hstep]
        by_cases hl : (lookupA st.adapters (jsStr (getInstanceId a))).isSome = true
        · rw [if_pos hl]
          obtain ⟨tail, h1, h2⟩ :=
            ih { st with alloc := st.alloc + 1 } (eraseKeyA removed (jsStr (getInstanceId a))) evs
          refine ⟨tail, h1, fun k hk => ?_⟩
          obtain ⟨a', ha', hk'⟩ := h2 k hk
          exact ⟨a', List.mem_cons_of_mem _ ha', hk'⟩
        · rw [if_neg hl]
          obtain ⟨tail, h1, h2⟩ :=
            ih { st with
                  adapters := st.adapters ++
                    [(jsStr (getInstanceId a), mkHandle platform v st.alloc a)]
                  alloc := st.alloc + 1
                  openedSubs := st.openedSubs ++ [st.alloc]
                  closedSubs := st.closedSubs ++ [st.alloc] }
              removed (evs ++ [.added (mkHandle platform v st.alloc a)])
          refine ⟨(jsStr (getInstanceId a), mkHandle platform v st.alloc a) :: tail, ?_, ?_⟩
          · rw [h1]
            simp
          · intro k hk
            rw [keysOf_cons, List.mem_cons] at hk
            rcases hk with hk | hk
            · exact ⟨a, List.mem_cons_self _ _, hk.symm⟩
            · obtain ⟨a', ha', hk'⟩ := h2 k hk
              exact ⟨a', List.mem_cons_of_mem _ ha', hk'⟩
      · rw [processLoop_cons_err platform a rest st removed evs
          (by simpa using hca)]
        exact ⟨[], by simp [outState], by simp [keysOf]⟩

theorem processLoop_lookup_pres (platform : String) (list : List RawDeviceDescriptor)
    (st : FactoryState) (removed : List (String × Adapter)) (evs : List FactoryEvent)
    (k : String) (h : Adapter) (hl : lookupA st.adapters k = some h) :
    lookupA (outState (processLoop platform list st removed evs)).adapters k = some h := by
  obtain ⟨tail, h1, _⟩ := processLoop_adapters_mono platform list st removed evs
  rw [h1]
  exact lookupA_append_of_some _ _ _ _ hl

theorem getInstanceIdEvents_all_error (a : RawDeviceDescriptor) :
    ∀ e ∈ getInstanceIdEvents a, ∃ m, e = FactoryEvent.error m := by
  intro e he
  unfold getInstanceIdEvents at he
  split_ifs at he
  · exact absurd he (List.not_mem_nil e)
  · exact absurd he (List.not_mem_nil e)
  · rw [List.mem_singleton] at he
    exact ⟨_, he⟩

theorem processLoop_mem_keys_ok (platform : String) (list : List RawDeviceDescriptor) :
    ∀ (st : FactoryState) (removed : List (String × Adapter)) (evs : List FactoryEvent)
      (st' : FactoryState) (rem' : List (String × Adapter)) (evs' : List FactoryEvent),
      processLoop platform list st removed evs = .ok (st', rem', evs') →
      ∀ a ∈ list, jsStr (getInstanceId a) ∈ keysOf st'.adapters := by
  induction list with
  | nil =>
      intro st removed evs st' rem' evs' h a ha
      exact absurd ha (List.not_mem_nil a)
  | cons b rest ih =>
      intro st removed evs st' rem' evs' h a ha
      by_cases hcb : classifyOk b = true
      · obtain ⟨v, hstep⟩ := processLoop_cons_ok platform b rest st removed evs hcb
        rw [hstep] at h
        by_cases hl : (lookupA st.adapters (jsStr (getInstanceId b))).isSome = true
        · rw [if_pos hl] at h
          rcases List.mem_cons.mp ha with hab | ha'
          · subst hab
            have hk := (lookupA_isSome_iff st.adapters _).mp hl
            obtain ⟨tail, h1, _⟩ := processLoop_adapters_mono platform rest
              { st with alloc := st.alloc + 1 }
              (eraseKeyA removed (jsStr (getInstanceId a))) evs
            rw [h] at h1
            simp only [outState] at h1
            rw [h1, keysOf_append]
            exact List.mem_append_left _ hk
          · exact ih _ _ _ _ _ _ h a ha'
        · rw [if_neg hl] at h
          rcases List.mem_cons.mp ha with hab | ha'
          · subst hab
            obtain ⟨tail, h1, _⟩ := processLoop_adapters_mono platform rest
              { st with
                  adapters := st.adapters ++
                    [(jsStr (getInstanceId a), mkHandle platform v st.alloc a)]
                  alloc := st.alloc + 1
                  openedSubs := st.openedSubs ++ [st.alloc]
                  closedSubs := st.closedSubs ++ [st.alloc] }
              removed (evs ++ [.added (mkHandle platform v st.alloc a)])
            rw [h] at h1
            simp only [outState] at h1
            rw [h1, keysOf_append]
            apply List.mem_append_left
            rw [keysOf_append]
            apply List.mem_append_right
            simp [keysOf]
          · exact ih _ _ _ _ _ _ h a ha'
      · rw [processLoop_cons_err platform b rest st removed evs (by simpa using hcb)] at h
        exact Except.noConfusion h

theorem processLoop_mem_keys_err (platform : String) (list : List RawDeviceDescriptor) :
    ∀ (st : FactoryState) (removed : List (String × Adapter)) (evs : List FactoryEvent)
      (st' : FactoryState) (evs' : List FactoryEvent),
      processLoop platform list st removed evs = .error (st', evs') →
      ∀ a ∈ list.takeWhile classifyOk, jsStr (getInstanceId a) ∈ keysOf st'.adapters := by
  induction list with
  | nil =>
      intro st removed evs st' evs' h a ha
      simp [processLoop] at h
  | cons b rest ih =>
      intro st removed evs st' evs' h a ha
      by_cases hcb : classifyOk b = true
      · rw [List.takeWhile_cons_of_pos hcb] at ha
        obtain ⟨v, hstep⟩ := processLoop_cons_ok platform b rest st removed evs hcb
        rw [hstep] at h
        by_cases hl : (lookupA st.adapters (jsStr (getInstanceId b))).isSome = true
        · rw [if_pos hl] at h
          rcases List.mem_cons.mp ha with hab | ha'
          · subst hab
            have hk := (lookupA_isSome_iff st.adapters _).mp hl
            obtain ⟨tail, h1, _⟩ := processLoop_adapters_mono platform rest
              { st with alloc := st.alloc + 1 }
              (eraseKeyA removed (jsStr (getInstanceId a))) evs
            rw [h] at h1
            simp only [outState] at h1
            rw [h1, keysOf_append]
            exact List.mem_append_left _ hk
          · exact ih _ _ _ _ _ h a ha'
        · rw [if_neg hl] at h
          rcases List.mem_cons.mp ha with hab | ha'
          · subst hab
            obtain ⟨tail, h1, _⟩ := processLoop_adapters_mono platform rest
              { st with
                  adapters := st.adapters ++
                    [(jsStr (getInstanceId a), mkHandle platform v st.alloc a)]
                  alloc := st.alloc + 1
                  openedSubs := st.openedSubs ++ [st.alloc]
                  closedSubs := st.closedSubs ++ [st.alloc] }
              removed (evs ++ [.added (mkHandle platform v st.alloc a)])
            rw [h] at h1
            simp only [outState] at h1
            rw [h1, keysOf_append]
            apply List.mem_append_left
            rw [keysOf_append]
            apply List.mem_append_right
            simp [keysOf]
          · exact ih _ _ _ _ _ h a ha'
      · rw [List.takeWhile_cons_of_neg (by simpa using hcb)] at ha
        exact absurd ha (List.not_mem_nil a)

theorem processLoop_rem_final (platform : String) (list : List RawDeviceDescriptor) :
    ∀ (st : FactoryState) (removed : List (String × Adapter)) (evs : List FactoryEvent)
      (st' : FactoryState) (rem' : List (String × Adapter)) (evs' : List FactoryEvent),
      processLoop platform list st removed evs = .ok (st', rem', evs') →
      (∀ k ∈ keysOf removed, k ∈ keysOf st.adapters) →
      ∀ k ∈ keysOf rem',
        k ∈ keysOf removed ∧ ∀ a ∈ list, jsStr (getInstanceId a) ≠ k := by
  induction list with
  | nil =>
      intro st removed evs st' rem' evs' h hsub k hk
      simp only [processLoop, Except.ok.injEq, Prod.mk.injEq] at h
      obtain ⟨-, h2, -⟩ := h
      rw [← h2] at hk
      exact ⟨hk, fun a ha => absurd ha (List.not_mem_nil a)⟩
  | cons b rest ih =>
      intro st removed evs st' rem' evs' h hsub k hk
      by_cases hcb : classifyOk b = true
      · obtain ⟨v, hstep⟩ := processLoop_cons_ok platform b rest st removed evs hcb
        rw [hstep] at h
        by_cases hl : (lookupA st.adapters (jsStr (getInstanceId b))).isSome = true
        · rw [if_pos hl] at h
          have hsub1 : ∀ k' ∈ keysOf (eraseKeyA removed (jsStr (getInstanceId b))),
              k' ∈ keysOf ({ st with alloc := st.alloc + 1 } : FactoryState).adapters := by
            intro k' hk'
            exact hsub k' ((mem_keysOf_eraseKeyA _ _ _).mp hk').1
          obtain ⟨hmem, hrest⟩ := ih _ _ _ _ _ _ h hsub1 k hk
          obtain ⟨hmem1, hmem2⟩ := (mem_keysOf_eraseKeyA _ _ _).mp hmem
          refine ⟨hmem1, fun a ha => ?_⟩
          rcases List.mem_cons.mp ha with hab | ha'
          · subst hab
            exact fun hct => hmem2 hct.symm
          · exact hrest a ha'
        · rw [if_neg hl] at h
          have hsub1 : ∀ k' ∈ keysOf removed,
              k' ∈ keysOf ({ st with
                  adapters := st.adapters ++
                    [(jsStr (getInstanceId b), mkHandle platform v st.alloc b)]
                  alloc := st.alloc + 1
                  openedSubs := st.openedSubs ++ [st.alloc]
                  closedSubs := st.closedSubs ++ [st.alloc] } : FactoryState).adapters := by
            intro k' hk'
            show k' ∈ keysOf (st.adapters ++ _)
            rw [keysOf_append]
            exact List.mem_append_left _ (hsub k' hk')
          obtain ⟨hmem, hrest⟩ := ih _ _ _ _ _ _ h hsub1 k hk
          refine ⟨hmem, fun a ha => ?_⟩
          rcases List.mem_cons.mp ha with hab | ha'
          · subst hab
            intro hct
            apply hl
            rw [lookupA_isSome_iff, hct]
            exact hsub k hmem
          · exact hrest a ha'
      · rw [processLoop_cons_err platform b rest st removed evs (by simpa using hcb)] at h
        exact Except.noConfusion h

theorem processLoop_rem_erased (platform : String) (list : List RawDeviceDescriptor) :
    ∀ (st : FactoryState) (removed : List (String × Adapter)) (evs : List FactoryEvent)
      (st' : FactoryState) (rem' : List (String × Adapter)) (evs' : List FactoryEvent),
      processLoop platform list st removed evs = .ok (st', rem', evs') →
      ∀ k, k ∈ keysOf removed → k ∉ keysOf rem' →
        ∃ a, a ∈ list ∧ jsStr (getInstanceId a) = k := by
  induction list with
  | nil =>
      intro st removed evs st' rem' evs' h k hk hnk
      simp only [processLoop, Except.ok.injEq, Prod.mk.injEq] at h
      obtain ⟨-, h2, -⟩ := h
      rw [← h2] at hnk
      exact absurd hk hnk
  | cons b rest ih =>
      intro st removed evs st' rem' evs' h k hk hnk
      by_cases hcb : classifyOk b = true
      · obtain ⟨v, hstep⟩ := processLoop_cons_ok platform b rest st removed evs hcb
        rw [hstep] at h
        by_cases hl : (lookupA st.adapters (jsStr (getInstanceId b))).isSome = true
        · rw [if_pos hl] at h
          by_cases hkb : k = jsStr (getInstanceId b)
          · exact ⟨b, List.mem_cons_self _ _, hkb.symm⟩
          · have hk1 : k ∈ keysOf (eraseKeyA removed (jsStr (getInstanceId b))) :=
              (mem_keysOf_eraseKeyA _ _ _).mpr ⟨hk, hkb⟩
            obtain ⟨a, ha, hka⟩ := ih _ _ _ _ _ _ h k hk1 hnk
            exact ⟨a, List.mem_cons_of_mem _ ha, hka⟩
        · rw [if_neg hl] at h
          obtain ⟨a, ha, hka⟩ := ih _ _ _ _ _ _ h k hk hnk
          exact ⟨a, List.mem_cons_of_mem _ ha, hka⟩
      · rw [processLoop_cons_err platform b rest st removed evs (by simpa using hcb)] at h
        exact Except.noConfusion h

theorem processLoop_events (platform : String) (list : List RawDeviceDescriptor) :
    ∀ (st : FactoryState) (removed : List (String × Adapter)) (evs : List FactoryEvent),
      ∃ extra,
        outEvs (processLoop platform list st removed evs) = evs ++ extra ∧
        ∀ e ∈ extra,
          (∃ m, e = FactoryEvent.error m) ∨
          ∃ h', e = FactoryEvent.added h' ∧
            (∃ a, a ∈ list ∧ getInstanceId a = h'.instanceId) ∧
            jsStr h'.instanceId ∉ keysOf st.adapters := by
  induction list with
  | nil =>
      intro st removed evs
      exact ⟨[], by simp [processLoop, outEvs], by simp⟩
  | cons b rest ih =>
      intro st removed evs
      by_cases hcb : classifyOk b = true
      · obtain ⟨v, hstep⟩ := processLoop_cons_ok platform b rest st removed evs hcb
        rw [hstep]
        by_cases hl : (lookupA st.adapters (jsStr (getInstanceId b))).isSome = true
        · rw [if_pos hl]
          obtain ⟨extra, h1, h2⟩ :=
            ih { st with alloc := st.alloc + 1 } (eraseKeyA removed (jsStr (getInstanceId b))) evs
          refine ⟨extra, h1, fun e he => ?_⟩
          rcases h2 e he with herr | ⟨h', he', ⟨a, ha, hid⟩, hnk⟩
          · exact Or.inl herr
          · exact Or.inr ⟨h', he', ⟨a, List.mem_cons_of_mem _ ha, hid⟩, hnk⟩
        · rw [if_neg hl]
          obtain ⟨extra, h1, h2⟩ :=
            ih { st with
                  adapters := st.adapters ++
                    [(jsStr (getInstanceId b), mkHandle platform v st.alloc b)]
                  alloc := st.alloc + 1
                  openedSubs := st.openedSubs ++ [st.alloc]
                  closedSubs := st.closedSubs ++ [st.alloc] }
              removed (evs ++ [.added (mkHandle platform v st.alloc b)])
          refine ⟨.added (mkHandle platform v st.alloc b) :: extra, ?_, ?_⟩
          · rw [h1]
            simp
          · intro e he
            rcases List.mem_cons.mp he with he | he
            · subst he
              refine Or.inr ⟨mkHandle platform v st.alloc b, rfl,
                ⟨b, List.mem_cons_self _ _, rfl⟩, ?_⟩
              intro hct
              exact hl ((lookupA_isSome_iff _ _).mpr hct)
            · rcases h2 e he with herr | ⟨h', he', ⟨a, ha, hid⟩, hnk⟩
              · exact Or.inl herr
              · refine Or.inr ⟨h', he', ⟨a, List.mem_cons_of_mem _ ha, hid⟩, ?_⟩
                intro hct
                apply hnk
                show jsStr h'.instanceId ∈ keysOf (st.adapters ++ _)
                rw [keysOf_append]
                exact List.mem_append_left _ hct
      · rw [processLoop_cons_err platform b rest st removed evs (by simpa using hcb)]
        refine ⟨getInstanceIdEvents b ++ getInstanceIdEvents b, by simp [outEvs], ?_⟩
        intro e he
        rcases List.mem_append.mp he with he | he
        · exact Or.inl (getInstanceIdEvents_all_error b e he)
        · exact Or.inl (getInstanceIdEvents_all_error b e he)

theorem processLoop_nodup (platform : String) (list : List RawDeviceDescriptor) :
    ∀ (st : FactoryState) (removed : List (String × Adapter)) (evs : List FactoryEvent),
      (keysOf st.adapters).Nodup →
      (keysOf (outState (processLoop platform list st removed evs)).adapters).Nodup := by
  induction list with
  | nil =>
      intro st removed evs hnd
      simpa [processLoop, outState] using hnd
  | cons b rest ih =>
      intro st removed evs hnd
      by_cases hcb : classifyOk b = true
      · obtain ⟨v, hstep⟩ := processLoop_cons_ok platform b rest st removed evs hcb
        rw [hstep]
        by_cases hl : (lookupA st.adapters (jsStr (getInstanceId b))).isSome = true
        · rw [if_pos hl]
          exact ih _ _ _ hnd
        · rw [if_neg hl]
          apply ih
          show (keysOf (st.adapters ++ _)).Nodup
          rw [keysOf_append]
          rw [List.nodup_append]
          refine ⟨hnd, List.nodup_singleton _, ?_⟩
          intro x hx hx'
          rw [keysOf_cons, keysOf_nil, List.mem_singleton] at hx'
          subst hx'
          exact hl ((lookupA_isSome_iff _ _).mpr hx)
      · rw [processLoop_cons_err platform b rest st removed evs (by simpa using hcb)]
        simpa [outState] using hnd

theorem processLoop_ok_of_all (platform : String) (list : List RawDeviceDescriptor) :
    ∀ (st : FactoryState) (removed : List (String × Adapter)) (evs : List FactoryEvent),
      list.all classifyOk = true →
      ∃ st' rem' evs', processLoop platform list st removed evs = .ok (st', rem', evs') := by
  induction list with
  | nil =>
      intro st removed evs _
      exact ⟨st, removed, evs, rfl⟩
  | cons b rest ih =>
      intro st removed evs h
      rw [List.all_cons, Bool.and_eq_true] at h
      obtain ⟨v, hstep⟩ := processLoop_cons_ok platform b rest st removed evs h.1
      rw [hstep]
      by_cases hl : (lookupA st.adapters (jsStr (getInstanceId b))).isSome = true
      · rw [if_pos hl]
        exact ih _ _ _ h.2
      · rw [if_neg hl]
        exact ih _ _ _ h.2

theorem processLoop_err_of_not_all (platform : String) (list : List RawDeviceDescriptor) :
    ∀ (st : FactoryState) (removed : List (String × Adapter)) (evs : List FactoryEvent),
      list.all classifyOk = false →
      ∃ st' evs', processLoop platform list st removed evs = .error (st', evs') := by
  induction list with
  | nil =>
      intro st removed evs h
      simp at h
  | cons b rest ih =>
      intro st removed evs h
      by_cases hcb : classifyOk b = true
      · rw [List.all_cons, hcb, Bool.true_and] at h
        obtain ⟨v, hstep⟩ := processLoop_cons_ok platform b rest st removed evs hcb
        rw [hstep]
        by_cases hl : (lookupA st.adapters (jsStr (getInstanceId b))).isSome = true
        · rw [if_pos hl]
          exact ih _ _ _ h
        · rw [if_neg hl]
          exact ih _ _ _ h
      · exact ⟨st, _, processLoop_cons_err platform b rest st removed evs (by simpa using hcb)⟩

theorem processLoop_steady (platform : String) (list : List RawDeviceDescriptor) :
    ∀ (st : FactoryState) (removed : List (String × Adapter)) (evs : List FactoryEvent),
      (∀ a ∈ list.takeWhile classifyOk, jsStr (getInstanceId a) ∈ keysOf st.adapters) →
      (list.all classifyOk = true →
        ∃ n rem', processLoop platform list st removed evs =
          .ok ({ st with alloc := n }, rem', evs)) ∧
      (list.all classifyOk = false →
        ∃ n extra, processLoop platform list st removed evs =
          .error ({ st with alloc := n }, evs ++ extra) ∧
          ∀ e ∈ extra, ∃ m, e = FactoryEvent.error m) := by
  induction list with
  | nil =>
      intro st removed evs _
      constructor
      · intro _
        exact ⟨st.alloc, removed, rfl⟩
      · intro h
        simp at h
  | cons b rest ih =>
      intro st removed evs hpres
      by_cases hcb : classifyOk b = true
      · have hb : jsStr (getInstanceId b) ∈ keysOf st.adapters := by
          apply hpres
          rw [List.takeWhile_cons_of_pos hcb]
          exact List.mem_cons_self _ _
        have hl : (lookupA st.adapters (jsStr (getInstanceId b))).isSome = true :=
          (lookupA_isSome_iff _ _).mpr hb
        obtain ⟨v, hstep⟩ := processLoop_cons_ok platform b rest st removed evs hcb
        rw [hstep, if_pos hl]
        have hpres' : ∀ a ∈ rest.takeWhile classifyOk,
            jsStr (getInstanceId a) ∈
              keysOf ({ st with alloc := st.alloc + 1 } : FactoryState).adapters := by
          intro a ha
          apply hpres
          rw [List.takeWhile_cons_of_pos hcb]
          exact List.mem_cons_of_mem _ ha
        obtain ⟨ihok, iherr⟩ := ih { st with alloc := st.alloc + 1 }
          (eraseKeyA removed (jsStr (getInstanceId b))) evs hpres'
        constructor
        · intro hall
          rw [List.all_cons, hcb, Bool.true_and] at hall
          obtain ⟨n, rem', heq⟩ := ihok hall
          exact ⟨n, rem', heq⟩
        · intro hall
          rw [List.all_cons, hcb, Bool.true_and] at hall
          obtain ⟨n, extra, heq, hextra⟩ := iherr hall
          exact ⟨n, extra, heq, hextra⟩
      · constructor
        · intro hall
          rw [List.all_cons, Bool.and_eq_true] at hall
          exact absurd hall.1 hcb
        · intro _
          refine ⟨st.alloc, getInstanceIdEvents b ++ getInstanceIdEvents b, ?_, ?_⟩
          · rw [processLoop_cons_err platform b rest st removed evs (by simpa using hcb)]
            rw [List.append_assoc]
          · intro e he
            rcases List.mem_append.mp he with he | he
            · exact getInstanceIdEvents_all_error b e he
            · exact getInstanceIdEvents_all_error b e he

theorem getInstanceIdEvents_all_missing (a : RawDeviceDescriptor) :
    ∀ e ∈ getInstanceIdEvents a,
      e = FactoryEvent.error "Failed to get adapter instanceId" := by
  intro e he
  unfold getInstanceIdEvents at he
  split_ifs at he
  · exact absurd he (List.not_mem_nil e)
  · exact absurd he (List.not_mem_nil e)
  · rw [List.mem_singleton] at he
    exact he

theorem processLoop_bad_aborts (platform : String) (bad : RawDeviceDescriptor)
    (post : List RawDeviceDescriptor) (hbad : classifyOk bad = false)
    (pre : List RawDeviceDescriptor) :
    ∀ (st : FactoryState) (removed : List (String × Adapter)) (evs : List FactoryEvent),
      (∀ a ∈ pre, classifyOk a = true) →
      ∃ st' extra,
        processLoop platform (pre ++ bad :: post) st removed evs = .error (st', evs ++ extra) ∧
        (∃ tail, st'.adapters = st.adapters ++ tail ∧
          ∀ k ∈ keysOf tail, ∃ a, a ∈ pre ∧ jsStr (getInstanceId a) = k) ∧
        (pre = [] → st' = st) ∧
        (∀ e ∈ extra,
          e = FactoryEvent.error "Failed to get adapter instanceId" ∨
          ∃ h', e = FactoryEvent.added h' ∧ ∃ a, a ∈ pre ∧ getInstanceId a = h'.instanceId) ∧
        (∀ a ∈ pre, jsStr (getInstanceId a) ∈ keysOf st'.adapters) ∧
        (∀ a ∈ pre, jsStr (getInstanceId a) ∉ keysOf st.adapters →
          ∃ h', FactoryEvent.added h' ∈ extra ∧
            jsStr h'.instanceId = jsStr (getInstanceId a)) ∧
        (∃ extra0, extra = extra0 ++ (getInstanceIdEvents bad ++ getInstanceIdEvents bad)) := by
  induction pre with
  | nil =>
      intro st removed evs _
      refine ⟨st, getInstanceIdEvents bad ++ getInstanceIdEvents bad, ?_,
        ⟨[], by simp, by simp [keysOf]⟩, fun _ => rfl, ?_, ?_, ?_, ⟨[], by simp⟩⟩
      · rw [List.nil_append,
          processLoop_cons_err platform bad post st removed evs hbad, List.append_assoc]
      · intro e he
        rcases List.mem_append.mp he with he | he
        · exact Or.inl (getInstanceIdEvents_all_missing bad e he)
        · exact Or.inl (getInstanceIdEvents_all_missing bad e he)
      · intro a ha
        exact absurd ha (List.not_mem_nil a)
      · intro a ha
        exact absurd ha (List.not_mem_nil a)
  | cons a0 pre' ih =>
      intro st removed evs hpre
      have hca : classifyOk a0 = true := hpre a0 (List.mem_cons_self _ _)
      have hpre' : ∀ a' ∈ pre', classifyOk a' = true :=
        fun a' ha' => hpre a' (List.mem_cons_of_mem _ ha')
      rw [List.cons_append]
      obtain ⟨v, hstep⟩ :=
        processLoop_cons_ok platform a0 (pre' ++ bad :: post) st removed evs hca
      rw [hstep]
      by_cases hl : (lookupA st.adapters (jsStr (getInstanceId a0))).isSome = true
      · rw [if_pos hl]
        obtain ⟨st', extra, heq, ⟨tail, htail, htailkeys⟩, -, hextra, hpresent, hadded,
          ⟨extra0, hextra0⟩⟩ :=
          ih { st with alloc := st.alloc + 1 }
            (eraseKeyA removed (jsStr (getInstanceId a0))) evs hpre'
        refine ⟨st', extra, heq, ⟨tail, htail, ?_⟩, ?_, ?_, ?_, ?_, ⟨extra0, hextra0⟩⟩
        · intro k hk
          obtain ⟨a, ha, hka⟩ := htailkeys k hk
          exact ⟨a, List.mem_cons_of_mem _ ha, hka⟩
        · intro hc
          exact absurd hc (List.cons_ne_nil a0 pre')
        · intro e he
          rcases hextra e he with herr | ⟨h', he', a', ha', hid⟩
          · exact Or.inl herr
          · exact Or.inr ⟨h', he', a', List.mem_cons_of_mem _ ha', hid⟩
        · intro a ha
          rcases List.mem_cons.mp ha with rfl | ha'
          · rw [htail, keysOf_append]
            exact List.mem_append_left _ ((lookupA_isSome_iff _ _).mp hl)
          · exact hpresent a ha'
        · intro a ha hnotin
          rcases List.mem_cons.mp ha with rfl | ha'
          · exact absurd ((lookupA_isSome_iff _ _).mp hl) hnotin
          · exact hadded a ha' hnotin
      · rw [if_neg hl]
        obtain ⟨st', extra, heq, ⟨tail, htail, htailkeys⟩, -, hextra, hpresent, hadded,
          ⟨extra0, hextra0⟩⟩ :=
          ih { st with
                adapters := st.adapters ++
                  [(jsStr (getInstanceId a0), mkHandle platform v st.alloc a0)]
                alloc := st.alloc + 1
                openedSubs := st.openedSubs ++ [st.alloc]
                closedSubs := st.closedSubs ++ [st.alloc] }
            removed (evs ++ [.added (mkHandle platform v st.alloc a0)]) hpre'
        refine ⟨st', .added (mkHandle platform v st.alloc a0) :: extra, ?_, ?_, ?_, ?_, ?_, ?_, ?_⟩
        · rw [heq]
          simp
        · refine ⟨(jsStr (getInstanceId a0), mkHandle platform v st.alloc a0) :: tail, ?_, ?_⟩
          · rw [htail]
            simp
          · intro k hk
            rw [keysOf_cons, List.mem_cons] at hk
            rcases hk with hk | hk
            · exact ⟨a0, List.mem_cons_self _ _, hk.symm⟩
            · obtain ⟨a, ha, hka⟩ := htailkeys k hk
              exact ⟨a, List.mem_cons_of_mem _ ha, hka⟩
        · intro hc
          exact absurd hc (List.cons_ne_nil a0 pre')
        · intro e he
          rcases List.mem_cons.mp he with he | he
          · exact Or.inr ⟨mkHandle platform v st.alloc a0, he,
              a0, List.mem_cons_self _ _, rfl⟩
          · rcases hextra e he with herr | ⟨h', he', a', ha', hid⟩
            · exact Or.inl herr
            · exact Or.inr ⟨h', he', a', List.mem_cons_of_mem _ ha', hid⟩
        · intro a ha
          rcases List.mem_cons.mp ha with rfl | ha'
          · rw [htail, keysOf_append]
            apply List.mem_append_left
            show jsStr (getInstanceId a) ∈
              keysOf (st.adapters ++ [(jsStr (getInstanceId a), mkHandle platform v st.alloc a)])
            rw [keysOf_append]
            apply List.mem_append_right
            simp [keysOf]
          · exact hpresent a ha'
        · intro a ha hnotin
          rcases List.mem_cons.mp ha with rfl | ha'
          · exact ⟨mkHandle platform v st.alloc a, List.mem_cons_self _ _, rfl⟩
          · by_cases hkk : jsStr (getInstanceId a) = jsStr (getInstanceId a0)
            · refine ⟨mkHandle platform v st.alloc a0, List.mem_cons_self _ _, ?_⟩
              rw [hkk]
              rfl
            · have hnotin' : jsStr (getInstanceId a) ∉
                  keysOf (st.adapters ++
                    [(jsStr (getInstanceId a0), mkHandle platform v st.alloc a0)]) := by
                rw [keysOf_append]
                intro hmem
                rcases List.mem_append.mp hmem with hmem | hmem
                · exact hnotin hmem
                · rw [keysOf_cons, keysOf_nil, List.mem_singleton] at hmem
                  exact hkk hmem
              obtain ⟨h', hmem, hid⟩ := hadded a ha' hnotin'
              exact ⟨h', List.mem_cons_of_mem _ hmem, hid⟩
        · exact ⟨.added (mkHandle platform v st.alloc a0) :: extra0, by rw [hextra0]; simp⟩

/-! ## Structural lemmas about `removalLoop` -/


theorem removalLoop_cons_some (k0 : String) (v0 ad : Adapter)
    (rest : List (String × Adapter)) (st : FactoryState) (evs : List FactoryEvent)
    (hl : lookupA st.adapters k0 = some ad) :
    removalLoop ((k0, v0) :: rest) st evs =
      removalLoop rest
        { st with adapters := eraseKeyA st.adapters k0
                  openedSubs := st.openedSubs.filter (fun r => !(r == ad.ref)) }
        (evs ++ [.removed ad]) := by
  simp [removalLoop, hl]

theorem removalLoop_cons_none (k0 : String) (v0 : Adapter)
    (rest : List (String × Adapter)) (st : FactoryState) (evs : List FactoryEvent)
    (hl : lookupA st.adapters k0 = none) :
    removalLoop ((k0, v0) :: rest) st evs = .error (st, evs) := by
  simp [removalLoop, hl]

theorem removalLoop_events (rem : List (String × Adapter)) :
    ∀ (st : FactoryState) (evs : List FactoryEvent),
      ∃ extra,
        (out2 (removalLoop rem st evs)).2 = evs ++ extra ∧
        ∀ e ∈ extra, ∃ h, e = FactoryEvent.removed h := by
  induction rem with
  | nil =>
      intro st evs
      exact ⟨[], by simp [removalLoop, out2], by simp⟩
  | cons kv rest ih =>
      intro st evs
      obtain ⟨k0, v0⟩ := kv
      cases hl : lookupA st.adapters k0 with
      | some ad =>
          rw [removalLoop_cons_some _ _ _ _ _ _ hl]
          obtain ⟨extra, h1, h2⟩ := ih _ (evs ++ [.removed ad])
          refine ⟨.removed ad :: extra, ?_, ?_⟩
          · rw [h1]
            simp
          · intro e he
            rcases List.mem_cons.mp he with he | he
            · exact ⟨ad, he⟩
            · exact h2 e he
      | none =>
          rw [removalLoop_cons_none _ _ _ _ _ hl]
          exact ⟨[], by simp [out2], by simp⟩

theorem removalLoop_lookup_pres (rem : List (String × Adapter)) :
    ∀ (st : FactoryState) (evs : List FactoryEvent) (k : String),
      k ∉ keysOf rem →
      lookupA (out2 (removalLoop rem st evs)).1.adapters k = lookupA st.adapters k := by
  induction rem with
  | nil =>
      intro st evs k _
      simp [removalLoop, out2]
  | cons kv rest ih =>
      intro st evs k hk
      obtain ⟨k0, v0⟩ := kv
      rw [keysOf_cons, List.mem_cons] at hk
      push_neg at hk
      cases hl : lookupA st.adapters k0 with
      | some ad =>
          rw [removalLoop_cons_some _ _ _ _ _ _ hl, ih _ _ k hk.2]
          exact lookupA_eraseKeyA_ne _ _ _ hk.1
      | none =>
          rw [removalLoop_cons_none _ _ _ _ _ hl]
          simp [out2]

theorem removalLoop_nodup (rem : List (String × Adapter)) :
    ∀ (st : FactoryState) (evs : List FactoryEvent),
      (keysOf st.adapters).Nodup →
      (keysOf (out2 (removalLoop rem st evs)).1.adapters).Nodup := by
  induction rem with
  | nil =>
      intro st evs hnd
      simpa [removalLoop, out2] using hnd
  | cons kv rest ih =>
      intro st evs hnd
      obtain ⟨k0, v0⟩ := kv
      cases hl : lookupA st.adapters k0 with
      | some ad =>
          rw [removalLoop_cons_some _ _ _ _ _ _ hl]
          exact ih _ _ (nodup_keysOf_eraseKeyA _ _ hnd)
      | none =>
          rw [removalLoop_cons_none _ _ _ _ _ hl]
          simpa [out2] using hnd

theorem removalLoop_ok (rem : List (String × Adapter)) :
    ∀ (st : FactoryState) (evs : List FactoryEvent),
      (keysOf rem).Nodup →
      (∀ k ∈ keysOf rem, k ∈ keysOf st.adapters) →
      ∃ st'' extra,
        removalLoop rem st evs = .ok (st'', evs ++ extra) ∧
        (∀ k, k ∈ keysOf st''.adapters ↔ k ∈ keysOf st.adapters ∧ k ∉ keysOf rem) ∧
        (∀ e ∈ extra, ∃ h, e = FactoryEvent.removed h) := by
  induction rem with
  | nil =>
      intro st evs _ _
      exact ⟨st, [], by simp [removalLoop], fun k => by simp [keysOf], by simp⟩
  | cons kv rest ih =>
      intro st evs hnd hsub
      obtain ⟨k0, v0⟩ := kv
      have hl0 : (lookupA st.adapters k0).isSome = true :=
        (lookupA_isSome_iff _ _).mpr (hsub k0 (by rw [keysOf_cons]; exact List.mem_cons_self _ _))
      cases hl : lookupA st.adapters k0 with
      | none =>
          rw [hl] at hl0
          simp at hl0
      | some ad =>
          rw [removalLoop_cons_some _ _ _ _ _ _ hl]
          rw [keysOf_cons] at hnd
          have hnd' : (keysOf rest).Nodup := (List.nodup_cons.mp hnd).2
          have hk0 : k0 ∉ keysOf rest := (List.nodup_cons.mp hnd).1
          have hsub' : ∀ k ∈ keysOf rest, k ∈ keysOf (eraseKeyA st.adapters k0) := by
            intro k hk
            apply (mem_keysOf_eraseKeyA _ _ _).mpr
            refine ⟨hsub k (by rw [keysOf_cons]; exact List.mem_cons_of_mem _ hk), ?_⟩
            intro hc
            exact hk0 (hc ▸ hk)
          obtain ⟨st'', extra, heq, hkeys, hevents⟩ := ih
            { st with adapters := eraseKeyA st.adapters k0
                      openedSubs := st.openedSubs.filter (fun r => !(r == ad.ref)) }
            (evs ++ [.removed ad]) hnd' hsub'
          refine ⟨st'', .removed ad :: extra, ?_, ?_, ?_⟩
          · rw [heq]
            simp
          · intro k
            have h1 := hkeys k
            constructor
            · intro hk
              obtain ⟨hk1, hk2⟩ := h1.mp hk
              have hk1' : k ∈ keysOf (eraseKeyA st.adapters k0) := hk1
              obtain ⟨hka, hkb⟩ := (mem_keysOf_eraseKeyA _ _ _).mp hk1'
              refine ⟨hka, ?_⟩
              rw [keysOf_cons, List.mem_cons]
              rintro (hc | hc)
              · exact hkb hc
              · exact hk2 hc
            · rintro ⟨hka, hkb⟩
              rw [keysOf_cons, List.mem_cons] at hkb
              push_neg at hkb
              apply h1.mpr
              exact ⟨(mem_keysOf_eraseKeyA _ _ _).mpr ⟨hka, hkb.1⟩, hkb.2⟩
          · intro e he
            rcases List.mem_cons.mp he with he | he
            · exact ⟨ad, he⟩
            · exact hevents e he

/-! ## Claim theorems -/

/-- Claim C1: for every raw device descriptor whose instance id matches the
Segger serial-number pattern, the captured digit maps to the driver generation
by the fixed table: digit 0 or 1 gives `v2`, digit 2 or 3 gives `v3`, any
other captured digit makes classification throw the unsupported-hardware
error, and an instance id that does not match the pattern at all makes it
throw the unknown-vendor error. -/
theorem C1_classification_table (a : RawDeviceDescriptor) (platform : String) (alloc : Nat) :
    (∀ d, seggerExec (jsStr (getInstanceId a)) = some d →
      (((d = '0' ∨ d = '1') → ∃ h, (parseAndCreateAdapter platform alloc a).2 =
          .ok (h, alloc + 1) ∧ h.driver = "v2") ∧
       ((d = '2' ∨ d = '3') → ∃ h, (parseAndCreateAdapter platform alloc a).2 =
          .ok (h, alloc + 1) ∧ h.driver = "v3") ∧
       ((d ≠ '0' ∧ d ≠ '1' ∧ d ≠ '2' ∧ d ≠ '3') →
        (parseAndCreateAdapter platform alloc a).2 =
          .error "Unsupported nRF5 development kit."))) ∧
    (seggerExec (jsStr (getInstanceId a)) = none →
      (parseAndCreateAdapter platform alloc a).2 =
        .error "Not able to determine version of pc-ble-driver to use.") := by
  constructor
  · intro d hseg
    refine ⟨?_, ?_, ?_⟩
    · rintro (rfl | rfl)
      · refine ⟨mkHandle platform "v2" alloc a, ?_, rfl⟩
        simp only [parseAndCreateAdapter, mkHandle]
        rw [hseg]
        rfl
      · refine ⟨mkHandle platform "v2" alloc a, ?_, rfl⟩
        simp only [parseAndCreateAdapter, mkHandle]
        rw [hseg]
        rfl
    · rintro (rfl | rfl)
      · refine ⟨mkHandle platform "v3" alloc a, ?_, rfl⟩
        simp only [parseAndCreateAdapter, mkHandle]
        rw [hseg]
        rfl
      · refine ⟨mkHandle platform "v3" alloc a, ?_, rfl⟩
        simp only [parseAndCreateAdapter, mkHandle]
        rw [hseg]
        rfl
    · rintro ⟨h0, h1, h2, h3⟩
      have hkit := seggerExec_isKitDigit _ _ hseg
      simp only [isKitDigit, Bool.or_eq_true, beq_iff_eq] at hkit
      rcases hkit with ((h | h) | h) | h
      · exact absurd h h0
      · exact absurd h h1
      · exact absurd h h2
      · exact absurd h h3
  · intro hseg
    simp only [parseAndCreateAdapter]
    rw [hseg]

/-- Witness for C1 at a concrete descriptor (captured digit 3, generation
`v3`). -/
theorem C1_classification_table_witness :
    ∃ h, (parseAndCreateAdapter "linux" 0 ⟨some "683123456", none, none⟩).2 =
        .ok (h, 1) ∧ h.driver = "v3" :=
  ((C1_classification_table ⟨some "683123456", none, none⟩ "linux" 0).1 '3'
    (by decide)).2.1 (Or.inr rfl)

theorem updateAdapterList_nodup (platform : String) (st : FactoryState) (enum : EnumResult)
    (cb : Bool) (hnd : (keysOf st.adapters).Nodup) :
    (keysOf (updateAdapterList platform st enum cb).state.adapters).Nodup := by
  cases enum with
  | err e => exact hnd
  | ok devices =>
      cases hpl : processLoop platform devices st st.adapters [] with
      | error p =>
          obtain ⟨st', evs⟩ := p
          have h1 := processLoop_nodup platform devices st st.adapters [] hnd
          rw [hpl] at h1
          simp only [outState] at h1
          simp only [updateAdapterList, hpl]
          exact h1
      | ok p =>
          obtain ⟨st', rem', evs'⟩ := p
          have h1 := processLoop_nodup platform devices st st.adapters [] hnd
          rw [hpl] at h1
          simp only [outState] at h1
          cases hrl : removalLoop rem' st' evs' with
          | error q =>
              obtain ⟨st'', evs''⟩ := q
              have h2 := removalLoop_nodup rem' st' evs' h1
              rw [hrl] at h2
              simp only [out2] at h2
              simp only [updateAdapterList, hpl, hrl]
              exact h2
          | ok q =>
              obtain ⟨st'', evs''⟩ := q
              have h2 := removalLoop_nodup rem' st' evs' h1
              rw [hrl] at h2
              simp only [out2] at h2
              simp only [updateAdapterList, hpl, hrl]
              exact h2

/-- Claim C2: after any sequence of reconcile passes, the adapter mapping
binds each instance id to at most one live handle (its key list has no
duplicates; the loop inserts a handle only for a key that is absent). -/
theorem C2_unique_handle_per_id (platform : String) (passes : List (EnumResult × Bool)) :
    (keysOf (runPasses platform passes initialFactoryState).adapters).Nodup := by
  have h : ∀ (ps : List (EnumResult × Bool)) (st : FactoryState),
      (keysOf st.adapters).Nodup →
      (keysOf (runPasses platform ps st).adapters).Nodup := by
    intro ps
    induction ps with
    | nil => intro st hst; exact hst
    | cons p rest ih =>
        intro st hst
        obtain ⟨e, cb⟩ := p
        exact ih _ (updateAdapterList_nodup platform st e cb hst)
  exact h passes initialFactoryState (by simp [initialFactoryState, keysOf])

/-- Claim C6: when the driver-layer enumeration reports an error, the cycle
leaves the factory state (in particular the adapter mapping) completely
unmodified, emits exactly one `error` event, and invokes the on-demand
callback, when present, with the error and no mapping. -/
theorem C6_enumeration_error_atomic (platform : String) (st : FactoryState) (e : String)
    (cb : Bool) :
    (updateAdapterList platform st (.err e) cb).state = st ∧
    (updateAdapterList platform st (.err e) cb).events = [.error e] ∧
    (updateAdapterList platform st (.err e) cb).callbacks =
      (if cb then [CallbackCall.withError e] else []) ∧
    (updateAdapterList platform st (.err e) cb).aborted = false :=
  ⟨rfl, rfl, rfl, rfl⟩


theorem sampleState_reachable :
    (updateAdapterList "linux" initialFactoryState
        (.ok [⟨some "680123456", none, none⟩]) false).state = sampleState := by
  decide

/-- Claim C4 (counterexample): from the reachable state holding the adapter
`680123456`, a batch consisting of an unclassifiable descriptor followed by a
fresh valid descriptor is reconciled to: nothing added, nothing removed, no
per-device error recorded, no callback — the whole pass aborts, contradicting
the claim that the other descriptors are still processed. -/
theorem C4_counterexample :
    updateAdapterList "linux" sampleState
        (.ok [⟨some "ABCDEFGHI", none, none⟩, ⟨some "680234567", none, none⟩]) true =
      { state := sampleState, events := [], callbacks := [], aborted := true } := by
  decide

/-- Claim C7 (counterexample): reconciling a descriptor whose id is already
present does construct a fresh handle (the allocation counter advances from 1
to 2) even though the mapping entry is untouched and no `added` event fires —
contradicting the claim that no new handle is constructed for it. -/
theorem C7_counterexample :
    updateAdapterList "linux" sampleState (.ok [⟨some "680123456", none, none⟩]) false =
      { state := { adapters := [("680123456", sampleHandle)]
                   alloc := 2
                   openedSubs := [0]
                   closedSubs := [0] }
        events := []
        callbacks := []
        aborted := false } := by
  decide

/-- Claim C8 (counterexample): first, a batch that contains a descriptor with
neither serial number nor com name does emit the missing-instance-id error,
but the mapping does not stay unchanged — a valid descriptor earlier in the
same batch has already inserted a handle; second, when an unclassifiable
descriptor precedes the missing-id one, the pass aborts there and no
missing-instance-id error is emitted at all. -/
theorem C8_counterexample :
    ((updateAdapterList "linux" initialFactoryState
        (.ok [⟨some "680123456", none, none⟩, ⟨none, none, none⟩]) false).state.adapters ≠
      initialFactoryState.adapters ∧
     FactoryEvent.error "Failed to get adapter instanceId" ∈
      (updateAdapterList "linux" initialFactoryState
        (.ok [⟨some "680123456", none, none⟩, ⟨none, none, none⟩]) false).events) ∧
    ((updateAdapterList "linux" initialFactoryState
        (.ok [⟨some "ABCDEFGHI", none, none⟩, ⟨none, none, none⟩]) false).events = [] ∧
     (updateAdapterList "linux" initialFactoryState
        (.ok [⟨some "ABCDEFGHI", none, none⟩, ⟨none, none, none⟩]) false).aborted = true) := by
  decide

/-- Claim C5 (code-bug evidence): after the adapter `680123456` is added in
one pass and removed in the next, the removed handle's `opened` subscription
is gone, but its `closed` subscription survives: a later `closed`
notification from the discarded handle is still re-emitted as
`adapterClosed` on the engine's public stream. -/
theorem C5_removed_handle_still_emits_closed :
    (emitOpenedFromHandle
        (updateAdapterList "linux" sampleState (.ok []) false).state sampleHandle = []) ∧
    (emitClosedFromHandle
        (updateAdapterList "linux" sampleState (.ok []) false).state sampleHandle =
      [.adapterClosed sampleHandle]) ∧
    FactoryEvent.removed sampleHandle ∈
      (updateAdapterList "linux" sampleState (.ok []) false).events := by
  decide

/-- Claim C4 (amended): the first descriptor whose classification fails
throws and aborts the reconcile pass.  The descriptors before it are
processed normally: each of their ids is in the mapping afterwards, and for
each of their ids that was new an `added` event is recorded.  Neither the
failing descriptor nor any later one contributes a handle: the mapping's
keys afterwards are exactly the previous keys plus the preceding
descriptors' ids.  Nothing is removed, no completion callback is invoked,
and the only per-device error events recorded are missing-instance-id
errors. -/
theorem C4_amended_classification_failure_aborts (platform : String) (st : FactoryState)
    (pre post : List RawDeviceDescriptor) (bad : RawDeviceDescriptor) (cb : Bool)
    (hpre : ∀ a ∈ pre, classifyOk a = true) (hbad : classifyOk bad = false) :
    (updateAdapterList platform st (.ok (pre ++ bad :: post)) cb).aborted = true ∧
    (updateAdapterList platform st (.ok (pre ++ bad :: post)) cb).callbacks = [] ∧
    (∀ e ∈ (updateAdapterList platform st (.ok (pre ++ bad :: post)) cb).events,
      isRemovedEv e = false) ∧
    (∀ e ∈ (updateAdapterList platform st (.ok (pre ++ bad :: post)) cb).events,
      e = FactoryEvent.error "Failed to get adapter instanceId" ∨
      ∃ h', e = FactoryEvent.added h' ∧ ∃ a, a ∈ pre ∧ getInstanceId a = h'.instanceId) ∧
    (∀ k, k ∈ keysOf
        (updateAdapterList platform st (.ok (pre ++ bad :: post)) cb).state.adapters ↔
      (k ∈ keysOf st.adapters ∨ ∃ a, a ∈ pre ∧ jsStr (getInstanceId a) = k)) ∧
    (∀ a ∈ pre, jsStr (getInstanceId a) ∉ keysOf st.adapters →
      ∃ h', FactoryEvent.added h' ∈
          (updateAdapterList platform st (.ok (pre ++ bad :: post)) cb).events ∧
        jsStr h'.instanceId = jsStr (getInstanceId a)) := by
  obtain ⟨st', extra, heq, ⟨tail, htail, htailkeys⟩, -, hextra, hpresent, hadded, -⟩ :=
    processLoop_bad_aborts platform bad post hbad pre st st.adapters [] hpre
  rw [List.nil_append] at heq
  simp only [updateAdapterList, heq]
  refine ⟨by trivial, by trivial, ?_, ?_, ?_, ?_⟩
  · intro e he
    rcases hextra e he with rfl | ⟨h', rfl, -⟩
    · rfl
    · rfl
  · exact hextra
  · intro k
    constructor
    · intro hk
      rw [htail, keysOf_append] at hk
      rcases List.mem_append.mp hk with hk | hk
      · exact Or.inl hk
      · exact Or.inr (htailkeys k hk)
    · rintro (hk | ⟨a, ha, hka⟩)
      · rw [htail, keysOf_append]
        exact List.mem_append_left _ hk
      · rw [← hka]
        exact hpresent a ha
  · exact hadded

/-- Witness for the amended C4: concrete batch where the classifiable new
descriptor precedes the unclassifiable one. -/
theorem C4_amended_classification_failure_aborts_witness :
    (updateAdapterList "linux" initialFactoryState
        (.ok ([⟨some "680123456", none, none⟩] ++ ⟨some "ABCDEFGHI", none, none⟩ :: []))
        true).aborted = true ∧
    (updateAdapterList "linux" initialFactoryState
        (.ok ([⟨some "680123456", none, none⟩] ++ ⟨some "ABCDEFGHI", none, none⟩ :: []))
        true).callbacks = [] ∧
    (∀ e ∈ (updateAdapterList "linux" initialFactoryState
        (.ok ([⟨some "680123456", none, none⟩] ++ ⟨some "ABCDEFGHI", none, none⟩ :: []))
        true).events, isRemovedEv e = false) ∧
    (∀ e ∈ (updateAdapterList "linux" initialFactoryState
        (.ok ([⟨some "680123456", none, none⟩] ++ ⟨some "ABCDEFGHI", none, none⟩ :: []))
        true).events,
      e = FactoryEvent.error "Failed to get adapter instanceId" ∨
      ∃ h', e = FactoryEvent.added h' ∧
        ∃ a, a ∈ [(⟨some "680123456", none, none⟩ : RawDeviceDescriptor)] ∧
          getInstanceId a = h'.instanceId) ∧
    (∀ k, k ∈ keysOf (updateAdapterList "linux" initialFactoryState
        (.ok ([⟨some "680123456", none, none⟩] ++ ⟨some "ABCDEFGHI", none, none⟩ :: []))
        true).state.adapters ↔
      (k ∈ keysOf initialFactoryState.adapters ∨
        ∃ a, a ∈ [(⟨some "680123456", none, none⟩ : RawDeviceDescriptor)] ∧
          jsStr (getInstanceId a) = k)) ∧
    (∀ a ∈ [(⟨some "680123456", none, none⟩ : RawDeviceDescriptor)],
      jsStr (getInstanceId a) ∉ keysOf initialFactoryState.adapters →
      ∃ h', FactoryEvent.added h' ∈ (updateAdapterList "linux" initialFactoryState
          (.ok ([⟨some "680123456", none, none⟩] ++ ⟨some "ABCDEFGHI", none, none⟩ :: []))
          true).events ∧
        jsStr h'.instanceId = jsStr (getInstanceId a)) :=
  C4_amended_classification_failure_aborts "linux" initialFactoryState
    [⟨some "680123456", none, none⟩] [] ⟨some "ABCDEFGHI", none, none⟩ true
    (by decide) (by decide)

/-- Claim C8 (amended): for every enumeration batch in which a descriptor
with neither a serial number nor a port name is preceded only by
successfully-classifying descriptors (a missing-id descriptor always fails
classification, so this makes it the batch's first failing descriptor), the
reconcile pass emits the MissingInstanceId-class error and aborts at that
descriptor: no handle is created for it — every added handle carries the
(present) instance id of one of the preceding descriptors — nothing is
removed, the mapping's keys afterwards are exactly the previous keys plus
the preceding descriptors' ids, and when the missing-id descriptor is the
batch's first the state is completely unchanged. -/
theorem C8_amended_missing_id (platform : String) (st : FactoryState)
    (pre post : List RawDeviceDescriptor) (d : RawDeviceDescriptor) (cb : Bool)
    (hpre : ∀ a ∈ pre, classifyOk a = true)
    (hs : truthyStr d.serialNumber = false) (hc : truthyStr d.comName = false) :
    FactoryEvent.error "Failed to get adapter instanceId" ∈
      (updateAdapterList platform st (.ok (pre ++ d :: post)) cb).events ∧
    (updateAdapterList platform st (.ok (pre ++ d :: post)) cb).aborted = true ∧
    (∀ e ∈ (updateAdapterList platform st (.ok (pre ++ d :: post)) cb).events,
      isRemovedEv e = false) ∧
    (∀ e ∈ (updateAdapterList platform st (.ok (pre ++ d :: post)) cb).events,
      e = FactoryEvent.error "Failed to get adapter instanceId" ∨
      ∃ h', e = FactoryEvent.added h' ∧ ∃ a, a ∈ pre ∧ getInstanceId a = h'.instanceId) ∧
    (∀ e ∈ (updateAdapterList platform st (.ok (pre ++ d :: post)) cb).events,
      ∀ h', e = FactoryEvent.added h' → h'.instanceId ≠ none) ∧
    (∀ k, k ∈ keysOf
        (updateAdapterList platform st (.ok (pre ++ d :: post)) cb).state.adapters ↔
      (k ∈ keysOf st.adapters ∨ ∃ a, a ∈ pre ∧ jsStr (getInstanceId a) = k)) ∧
    (pre = [] → (updateAdapterList platform st (.ok (pre ++ d :: post)) cb).state = st) := by
  have hid : getInstanceId d = none := by
    unfold getInstanceId
    rw [hs, hc]
    simp
  have hbad : classifyOk d = false := by
    unfold classifyOk
    rw [hid]
    simp only [jsStr]
    rw [seggerExec_undefined]
  have hevd : getInstanceIdEvents d = [.error "Failed to get adapter instanceId"] :=
    getInstanceIdEvents_of_none d hid
  obtain ⟨st', extra, heq, ⟨tail, htail, htailkeys⟩, hnilst, hextra, hpresent, -,
    ⟨extra0, hextra0⟩⟩ :=
    processLoop_bad_aborts platform d post hbad pre st st.adapters [] hpre
  rw [List.nil_append] at heq
  simp only [updateAdapterList, heq]
  refine ⟨?_, by trivial, ?_, ?_, ?_, ?_, ?_⟩
  · rw [hextra0, hevd]
    apply List.mem_append_right
    exact List.mem_append_left _ (List.mem_singleton_self _)
  · intro e he
    rcases hextra e he with rfl | ⟨h', rfl, -⟩
    · rfl
    · rfl
  · exact hextra
  · intro e he h' hadd
    rcases hextra e he with herr | ⟨h'', hadd'', a, ha, hid'⟩
    · rw [hadd] at herr
      exact FactoryEvent.noConfusion herr
    · rw [hadd] at hadd''
      obtain rfl := (FactoryEvent.added.injEq _ _).mp hadd''.symm
      rw [← hid']
      have hsome := getInstanceId_isSome_of_classifyOk a (hpre a ha)
      cases hga : getInstanceId a with
      | none => rw [hga] at hsome; simp at hsome
      | some s => exact Option.noConfusion
  · intro k
    constructor
    · intro hk
      rw [htail, keysOf_append] at hk
      rcases List.mem_append.mp hk with hk | hk
      · exact Or.inl hk
      · exact Or.inr (htailkeys k hk)
    · rintro (hk | ⟨a, ha, hka⟩)
      · rw [htail, keysOf_append]
        exact List.mem_append_left _ hk
      · rw [← hka]
        exact hpresent a ha
  · exact hnilst

/-- Witness for the amended C8: batch consisting of exactly one descriptor
with neither serial number nor com name, from the empty state. -/
theorem C8_amended_missing_id_witness :
    FactoryEvent.error "Failed to get adapter instanceId" ∈
      (updateAdapterList "linux" initialFactoryState
        (.ok ([] ++ (⟨none, none, none⟩ : RawDeviceDescriptor) :: [])) false).events ∧
    (updateAdapterList "linux" initialFactoryState
        (.ok ([] ++ (⟨none, none, none⟩ : RawDeviceDescriptor) :: [])) false).aborted = true ∧
    (∀ e ∈ (updateAdapterList "linux" initialFactoryState
        (.ok ([] ++ (⟨none, none, none⟩ : RawDeviceDescriptor) :: [])) false).events,
      isRemovedEv e = false) ∧
    (∀ e ∈ (updateAdapterList "linux" initialFactoryState
        (.ok ([] ++ (⟨none, none, none⟩ : RawDeviceDescriptor) :: [])) false).events,
      e = FactoryEvent.error "Failed to get adapter instanceId" ∨
      ∃ h', e = FactoryEvent.added h' ∧
        ∃ a, a ∈ ([] : List RawDeviceDescriptor) ∧ getInstanceId a = h'.instanceId) ∧
    (∀ e ∈ (updateAdapterList "linux" initialFactoryState
        (.ok ([] ++ (⟨none, none, none⟩ : RawDeviceDescriptor) :: [])) false).events,
      ∀ h', e = FactoryEvent.added h' → h'.instanceId ≠ none) ∧
    (∀ k, k ∈ keysOf (updateAdapterList "linux" initialFactoryState
        (.ok ([] ++ (⟨none, none, none⟩ : RawDeviceDescriptor) :: [])) false).state.adapters ↔
      (k ∈ keysOf initialFactoryState.adapters ∨
        ∃ a, a ∈ ([] : List RawDeviceDescriptor) ∧ jsStr (getInstanceId a) = k)) ∧
    (([] : List RawDeviceDescriptor) = [] →
      (updateAdapterList "linux" initialFactoryState
        (.ok ([] ++ (⟨none, none, none⟩ : RawDeviceDescriptor) :: [])) false).state =
        initialFactoryState) :=
  C8_amended_missing_id "linux" initialFactoryState [] [] ⟨none, none, none⟩ false
    (by decide) (by decide) (by decide)

/-- Claim C7 (amended): a descriptor whose id is already in the mapping at
the start of a pass survives the pass with the mapping entry being the
identical handle (same stored object identity), and no `added` event fires
for that id — although the pass may still construct (and discard) a fresh
handle object for it. -/
theorem C7_amended_survivor_kept (platform : String) (st : FactoryState)
    (D : List RawDeviceDescriptor) (cb : Bool) (a : RawDeviceDescriptor) (k : String)
    (h : Adapter) (ha : a ∈ D) (hk : jsStr (getInstanceId a) = k)
    (hlook : lookupA st.adapters k = some h) :
    lookupA (updateAdapterList platform st (.ok D) cb).state.adapters k = some h ∧
    ∀ e ∈ (updateAdapterList platform st (.ok D) cb).events,
      ∀ h', e = FactoryEvent.added h' → jsStr h'.instanceId ≠ k := by
  have hkmem : k ∈ keysOf st.adapters := mem_keysOf_of_lookupA _ _ _ hlook
  obtain ⟨extra1, hev1, hev1spec⟩ := processLoop_events platform D st st.adapters []
  have hlp := processLoop_lookup_pres platform D st st.adapters [] k h hlook
  cases hpl : processLoop platform D st st.adapters [] with
  | error p =>
      obtain ⟨st', evs'⟩ := p
      rw [hpl] at hlp hev1
      simp only [outState] at hlp
      simp only [outEvs] at hev1
      rw [List.nil_append] at hev1
      simp only [updateAdapterList, hpl]
      refine ⟨hlp, ?_⟩
      intro e he h' hadd
      rw [hev1] at he
      rcases hev1spec e he with ⟨m, hm⟩ | ⟨h'', hadd'', -, hnk⟩
      · rw [hadd] at hm
        exact FactoryEvent.noConfusion hm
      · rw [hadd] at hadd''
        obtain rfl := (FactoryEvent.added.injEq _ _).mp hadd''.symm
        intro hct
        rw [hct] at hnk
        exact hnk hkmem
  | ok p =>
      obtain ⟨st', rem', evs'⟩ := p
      rw [hpl] at hlp hev1
      simp only [outState] at hlp
      simp only [outEvs] at hev1
      rw [List.nil_append] at hev1
      have hrf := processLoop_rem_final platform D st st.adapters [] st' rem' evs' hpl
        (fun k' hk' => hk')
      have hknot : k ∉ keysOf rem' := by
        intro hmem
        exact (hrf k hmem).2 a ha hk
      have hrlp := removalLoop_lookup_pres rem' st' evs' k hknot
      obtain ⟨extra2, hev2, hev2spec⟩ := removalLoop_events rem' st' evs'
      cases hrl : removalLoop rem' st' evs' with
      | error q =>
          obtain ⟨st'', evs''⟩ := q
          rw [hrl] at hrlp hev2
          simp only [out2] at hrlp hev2
          simp only [updateAdapterList, hpl, hrl]
          refine ⟨by rw [hrlp]; exact hlp, ?_⟩
          intro e he h' hadd
          rw [hev2, hev1] at he
          rcases List.mem_append.mp he with he | he
          · rcases hev1spec e he with ⟨m, hm⟩ | ⟨h'', hadd'', -, hnk⟩
            · rw [hadd] at hm
              exact FactoryEvent.noConfusion hm
            · rw [hadd] at hadd''
              obtain rfl := (FactoryEvent.added.injEq _ _).mp hadd''.symm
              intro hct
              rw [hct] at hnk
              exact hnk hkmem
          · obtain ⟨hh, hhm⟩ := hev2spec e he
            rw [hadd] at hhm
            exact FactoryEvent.noConfusion hhm
      | ok q =>
          obtain ⟨st'', evs''⟩ := q
          rw [hrl] at hrlp hev2
          simp only [out2] at hrlp hev2
          simp only [updateAdapterList, hpl, hrl]
          refine ⟨by rw [hrlp]; exact hlp, ?_⟩
          intro e he h' hadd
          rw [hev2, hev1] at he
          rcases List.mem_append.mp he with he | he
          · rcases hev1spec e he with ⟨m, hm⟩ | ⟨h'', hadd'', -, hnk⟩
            · rw [hadd] at hm
              exact FactoryEvent.noConfusion hm
            · rw [hadd] at hadd''
              obtain rfl := (FactoryEvent.added.injEq _ _).mp hadd''.symm
              intro hct
              rw [hct] at hnk
              exact hnk hkmem
          · obtain ⟨hh, hhm⟩ := hev2spec e he
            rw [hadd] at hhm
            exact FactoryEvent.noConfusion hhm

/-- Witness for the amended C7 at the concrete reachable state holding
`680123456` and a pass that enumerates the same serial number again. -/
theorem C7_amended_survivor_kept_witness :
    lookupA (updateAdapterList "linux" sampleState
        (.ok [⟨some "680123456", none, none⟩]) false).state.adapters "680123456" =
      some sampleHandle ∧
    ∀ e ∈ (updateAdapterList "linux" sampleState
        (.ok [⟨some "680123456", none, none⟩]) false).events,
      ∀ h', e = FactoryEvent.added h' → jsStr h'.instanceId ≠ "680123456" :=
  C7_amended_survivor_kept "linux" sampleState [⟨some "680123456", none, none⟩] false
    ⟨some "680123456", none, none⟩ "680123456" sampleHandle
    (List.mem_singleton_self _) (by decide) (by decide)

theorem processLoop_rem_sublist (platform : String) (list : List RawDeviceDescriptor) :
    ∀ (st : FactoryState) (removed : List (String × Adapter)) (evs : List FactoryEvent)
      (st' : FactoryState) (rem' : List (String × Adapter)) (evs' : List FactoryEvent),
      processLoop platform list st removed evs = .ok (st', rem', evs') →
      List.Sublist rem' removed := by
  induction list with
  | nil =>
      intro st removed evs st' rem' evs' h
      simp only [processLoop, Except.ok.injEq, Prod.mk.injEq] at h
      obtain ⟨-, h2, -⟩ := h
      rw [← h2]
  | cons b rest ih =>
      intro st removed evs st' rem' evs' h
      by_cases hcb : classifyOk b = true
      · obtain ⟨v, hstep⟩ := processLoop_cons_ok platform b rest st removed evs hcb
        rw [hstep] at h
        by_cases hl : (lookupA st.adapters (jsStr (getInstanceId b))).isSome = true
        · rw [if_pos hl] at h
          exact (ih _ _ _ _ _ _ h).trans (List.filter_sublist _)
        · rw [if_neg hl] at h
          exact ih _ _ _ _ _ _ h
      · rw [processLoop_cons_err platform b rest st removed evs (by simpa using hcb)] at h
        exact Except.noConfusion h

theorem takeWhileEqSelfOfAll {α : Type} (p : α → Bool) (l : List α) (h : l.all p = true) :
    l.takeWhile p = l := by
  induction l with
  | nil => rfl
  | cons x xs ih =>
      rw [List.all_cons, Bool.and_eq_true] at h
      rw [List.takeWhile_cons_of_pos h.1, ih h.2]

/-- Claim C3: reconciliation is idempotent on events — running a reconcile
pass a second time with the same raw-descriptor list, immediately after a
first pass from any registry state with duplicate-free keys, emits zero
`added` and zero `removed` events, and leaves the mapping's key list
unchanged. -/
theorem C3_reconcile_idempotent (platform : String) (st : FactoryState)
    (D : List RawDeviceDescriptor) (cb1 cb2 : Bool)
    (hnd : (keysOf st.adapters).Nodup) :
    (∀ e ∈ (updateAdapterList platform
        (updateAdapterList platform st (.ok D) cb1).state (.ok D) cb2).events,
      isAddedEv e = false ∧ isRemovedEv e = false) ∧
    keysOf (updateAdapterList platform
        (updateAdapterList platform st (.ok D) cb1).state (.ok D) cb2).state.adapters =
      keysOf (updateAdapterList platform st (.ok D) cb1).state.adapters := by
  cases hall : D.all classifyOk with
  | true =>
      -- First pass: the loop completes, then the removal loop completes.
      obtain ⟨st', rem', evs', hpl⟩ :=
        processLoop_ok_of_all platform D st st.adapters [] hall
      have hmono := processLoop_adapters_mono platform D st st.adapters []
      rw [hpl] at hmono
      simp only [outState] at hmono
      obtain ⟨tail, htail, htailkeys⟩ := hmono
      have hrf := processLoop_rem_final platform D st st.adapters [] st' rem' evs' hpl
        (fun k' hk' => hk')
      have hnd' : (keysOf rem').Nodup :=
        ((processLoop_rem_sublist platform D st st.adapters [] st' rem' evs' hpl).map
          Prod.fst).nodup hnd
      have hsubrem : ∀ k ∈ keysOf rem', k ∈ keysOf st'.adapters := by
        intro k hkr
        rw [htail, keysOf_append]
        exact List.mem_append_left _ ((hrf k hkr).1)
      obtain ⟨st'', extra2, hrl, hkeys, -⟩ := removalLoop_ok rem' st' evs' hnd' hsubrem
      -- Key-set characterisation of the state after the first pass.
      have hmem1 : ∀ a ∈ D, jsStr (getInstanceId a) ∈ keysOf st''.adapters := by
        intro a ha
        apply (hkeys _).mpr
        refine ⟨processLoop_mem_keys_ok platform D st st.adapters [] st' rem' evs' hpl a ha, ?_⟩
        intro hmem
        exact (hrf _ hmem).2 a ha rfl
      have hmem2 : ∀ k ∈ keysOf st''.adapters, ∃ a, a ∈ D ∧ jsStr (getInstanceId a) = k := by
        intro k hkm
        obtain ⟨hk1, hk2⟩ := (hkeys k).mp hkm
        rw [htail, keysOf_append] at hk1
        rcases List.mem_append.mp hk1 with hk1 | hk1
        · exact processLoop_rem_erased platform D st st.adapters [] st' rem' evs' hpl k hk1 hk2
        · exact htailkeys k hk1
      -- Second pass: steady state.
      have hpres2 : ∀ a ∈ D.takeWhile classifyOk,
          jsStr (getInstanceId a) ∈ keysOf st''.adapters := by
        rw [takeWhileEqSelfOfAll classifyOk D hall]
        exact hmem1
      obtain ⟨hok2, -⟩ := processLoop_steady platform D st'' st''.adapters [] hpres2
      obtain ⟨n, rem2, hpl2⟩ := hok2 hall
      have hrem2nil : rem2 = [] := by
        have hrf2 := processLoop_rem_final platform D st'' st''.adapters [] _ rem2 [] hpl2
          (fun k' hk' => hk')
        cases rem2 with
        | nil => rfl
        | cons kv rest =>
            exfalso
            have hkmem : kv.1 ∈ keysOf (kv :: rest) := by
              rw [keysOf_cons]
              exact List.mem_cons_self _ _
            obtain ⟨hin, hnonein⟩ := hrf2 kv.1 hkmem
            obtain ⟨a, ha, hka⟩ := hmem2 kv.1 hin
            exact hnonein a ha hka
      rw [hrem2nil] at hpl2
      -- assemble both passes
      simp only [updateAdapterList, hpl, hrl, hpl2]
      have hrl2 : removalLoop [] ({ st'' with alloc := n } : FactoryState) [] =
          .ok ({ st'' with alloc := n }, []) := rfl
      simp only [hrl2]
      constructor
      · intro e he
        exact absurd he (List.not_mem_nil e)
      · trivial
  | false =>
      -- First pass aborts at the first unclassifiable descriptor.
      obtain ⟨st', evs', hpl⟩ := processLoop_err_of_not_all platform D st st.adapters [] hall
      have hpres2 : ∀ a ∈ D.takeWhile classifyOk,
          jsStr (getInstanceId a) ∈ keysOf st'.adapters :=
        processLoop_mem_keys_err platform D st st.adapters [] st' evs' hpl
      obtain ⟨-, herr2⟩ := processLoop_steady platform D st' st'.adapters [] hpres2
      obtain ⟨n, extra, hpl2, hextra⟩ := herr2 hall
      rw [List.nil_append] at hpl2
      simp only [updateAdapterList, hpl, hpl2]
      constructor
      · intro e he
        obtain ⟨m, rfl⟩ := hextra e he
        exact ⟨rfl, rfl⟩
      · trivial

/-- Witness for C3: concrete one-descriptor enumeration applied twice from
the empty initial state. -/
theorem C3_reconcile_idempotent_witness :
    (∀ e ∈ (updateAdapterList "linux"
        (updateAdapterList "linux" initialFactoryState
          (.ok [⟨some "680123456", none, none⟩]) false).state
        (.ok [⟨some "680123456", none, none⟩]) false).events,
      isAddedEv e = false ∧ isRemovedEv e = false) ∧
    keysOf (updateAdapterList "linux"
        (updateAdapterList "linux" initialFactoryState
          (.ok [⟨some "680123456", none, none⟩]) false).state
        (.ok [⟨some "680123456", none, none⟩]) false).state.adapters =
      keysOf (updateAdapterList "linux" initialFactoryState
        (.ok [⟨some "680123456", none, none⟩]) false).state.adapters :=
  C3_reconcile_idempotent "linux" initialFactoryState
    [⟨some "680123456", none, none⟩] false false (by decide)


/-- Claim C9: the engine is a construction-gated singleton — constructing
with any token other than the private one throws, `getInstance` succeeds
from the fresh state, and once an instance has been returned every further
`getInstance` call returns that same instance with the state unchanged. -/
theorem C9_singleton_gate :
    (∀ tok freshId, tok ≠ _singleton →
      adapterFactoryConstructor tok freshId = .error "Cannot instantiate directly.") ∧
    (∀ s inst s', getInstance s = .ok (inst, s') → getInstance s' = .ok (inst, s')) ∧
    (∃ inst s', getInstance { stored := none, nextId := 0 } = .ok (inst, s')) := by
  refine ⟨?_, ?_, ?_⟩
  · intro tok freshId hne
    unfold adapterFactoryConstructor
    rw [if_pos (fun hc => hne hc.symm)]
  · intro s inst s' h
    unfold getInstance at h ⊢
    cases hs : s.stored with
    | some i =>
        rw [hs] at h
        simp only [Except.ok.injEq, Prod.mk.injEq] at h
        obtain ⟨h1, h2⟩ := h
        rw [← h2, hs, h1]
    | none =>
        rw [hs] at h
        simp only [adapterFactoryConstructor, ne_eq, not_true_eq_false, if_neg,
          ite_false, Except.ok.injEq, Prod.mk.injEq] at h
        obtain ⟨h1, h2⟩ := h
        rw [← h2]
        simp only []
        rw [h1]
  · exact ⟨⟨0⟩, { stored := some ⟨0⟩, nextId := 1 }, rfl⟩

/-- Witness for C9: a forged token `1` is rejected, and the second
`getInstance` call returns the instance produced by the first. -/
theorem C9_singleton_gate_witness :
    adapterFactoryConstructor 1 0 = .error "Cannot instantiate directly." ∧
    getInstance { stored := some ⟨0⟩, nextId := 1 } =
      .ok (⟨0⟩, { stored := some ⟨0⟩, nextId := 1 }) :=
  ⟨C9_singleton_gate.1 1 0 (by decide),
   C9_singleton_gate.2.1 { stored := none, nextId := 0 } ⟨0⟩
     { stored := some ⟨0⟩, nextId := 1 } rfl⟩


theorem digitChar_toNat (d : Nat) (h : d < 10) : (digitChar d).toNat = 48 + d := by
  interval_cases d <;> decide

theorem digitChar_ne_dot (d : Nat) (h : d < 10) : digitChar d ≠ '.' := by
  intro hc
  have hdn := digitChar_toNat d h
  rw [hc] at hdn
  have h46 : ('.').toNat = 46 := rfl
  rw [h46] at hdn
  omega


theorem decode_natDigits (n : Nat) : decodeDigits (natDigits n) = n := by
  induction n using Nat.strong_induction_on with
  | _ n ih =>
      rw [natDigits]
      by_cases h : n < 10
      · rw [if_pos h]
        simp only [decodeDigits, List.foldl_cons, List.foldl_nil]
        rw [digitChar_toNat n h]
        omega
      · rw [if_neg h]
        have hlt : n / 10 < n := by omega
        have hmod : n % 10 < 10 := Nat.mod_lt n (by omega)
        simp only [decodeDigits, List.foldl_append, List.foldl_cons, List.foldl_nil]
        have hd := ih (n / 10) hlt
        simp only [decodeDigits] at hd
        rw [hd, digitChar_toNat (n % 10) hmod]
        omega

theorem natDigits_ne_dot (n : Nat) : ∀ c ∈ natDigits n, c ≠ '.' := by
  induction n using Nat.strong_induction_on with
  | _ n ih =>
      rw [natDigits]
      by_cases h : n < 10
      · rw [if_pos h]
        intro c hc
        rw [List.mem_singleton] at hc
        rw [hc]
        exact digitChar_ne_dot n h
      · rw [if_neg h]
        intro c hc
        rcases List.mem_append.mp hc with hc | hc
        · exact ih (n / 10) (by omega) c hc
        · rw [List.mem_singleton] at hc
          rw [hc]
          exact digitChar_ne_dot (n % 10) (Nat.mod_lt n (by omega))

theorem first_no_dot_cancel (a1 : List Char) :
    ∀ (t1 a2 t2 : List Char),
      (∀ c ∈ a1, c ≠ '.') → (∀ c ∈ a2, c ≠ '.') →
      a1 ++ '.' :: t1 = a2 ++ '.' :: t2 → a1 = a2 ∧ t1 = t2 := by
  induction a1 with
  | nil =>
      intro t1 a2 t2 h1 h2 h
      cases a2 with
      | nil =>
          simp only [List.nil_append, List.cons.injEq] at h
          exact ⟨rfl, h.2⟩
      | cons x xs =>
          simp only [List.nil_append, List.cons_append, List.cons.injEq] at h
          exact absurd h.1.symm (h2 x (List.mem_cons_self _ _))
  | cons y ys ih =>
      intro t1 a2 t2 h1 h2 h
      cases a2 with
      | nil =>
          simp only [List.cons_append, List.nil_append, List.cons.injEq] at h
          exact absurd h.1 (h1 y (List.mem_cons_self _ _))
      | cons x xs =>
          simp only [List.cons_append, List.cons.injEq] at h
          obtain ⟨hyx, hrest⟩ := h
          obtain ⟨ha, ht⟩ := ih t1 xs t2
            (fun c hc => h1 c (List.mem_cons_of_mem _ hc))
            (fun c hc => h2 c (List.mem_cons_of_mem _ hc)) hrest
          exact ⟨by rw [hyx, ha], ht⟩

theorem suffix_digits_cancel (s1 s2 d1 d2 : List Char)
    (hd1 : ∀ c ∈ d1, c ≠ '.') (hd2 : ∀ c ∈ d2, c ≠ '.')
    (h : s1 ++ '.' :: d1 = s2 ++ '.' :: d2) : d1 = d2 := by
  have h' : d1.reverse ++ '.' :: s1.reverse = d2.reverse ++ '.' :: s2.reverse := by
    have hr := congrArg List.reverse h
    simpa [List.reverse_append, List.reverse_cons, List.append_assoc] using hr
  have hres := first_no_dot_cancel d1.reverse s1.reverse d2.reverse s2.reverse
    (fun c hc => hd1 c (List.mem_reverse.mp hc))
    (fun c hc => hd2 c (List.mem_reverse.mp hc)) h'
  have hrev := congrArg List.reverse hres.1
  simpa using hrev

theorem instanceId_eq_counter_eq (svc1 svc2 : String) (m n : Nat)
    (h : svc1 ++ "." ++ natToString m = svc2 ++ "." ++ natToString n) : m = n := by
  have hd : svc1.data ++ '.' :: natDigits m = svc2.data ++ '.' :: natDigits n := by
    have hdd := congrArg String.data h
    simpa [String.data_append, natToString, List.append_assoc] using hdd
  have hdig := suffix_digits_cancel svc1.data svc2.data (natDigits m) (natDigits n)
    (natDigits_ne_dot m) (natDigits_ne_dot n) hd
  rw [← decode_natDigits m, ← decode_natDigits n, hdig]

theorem buildCharacteristics_id_shape {α β : Type}
    (reqs : List (String × String × α × β)) :
    ∀ (i : Nat) (c : Characteristic α β), c ∈ buildCharacteristics reqs i →
      ∃ svc n, i ≤ n ∧ c._instanceId = svc ++ "." ++ natToString n := by
  induction reqs with
  | nil =>
      intro i c hc
      exact absurd hc (List.not_mem_nil c)
  | cons r rest ih =>
      intro i c hc
      obtain ⟨svc, u, p, v⟩ := r
      simp only [buildCharacteristics] at hc
      rcases List.mem_cons.mp hc with hc | hc
      · refine ⟨svc, i, Nat.le_refl i, ?_⟩
        rw [hc]
        rfl
      · obtain ⟨svc', n, hn, hid⟩ := ih (i + 1) c hc
        exact ⟨svc', n, by omega, hid⟩

theorem buildCharacteristics_pairwise {α β : Type}
    (reqs : List (String × String × α × β)) :
    ∀ i : Nat, (buildCharacteristics reqs i).Pairwise
      (fun c1 c2 => c1._instanceId ≠ c2._instanceId) := by
  induction reqs with
  | nil =>
      intro i
      exact List.Pairwise.nil
  | cons r rest ih =>
      intro i
      obtain ⟨svc, u, p, v⟩ := r
      simp only [buildCharacteristics]
      refine List.Pairwise.cons ?_ (ih (i + 1))
      intro c hc heq
      obtain ⟨svc', n, hn, hid⟩ := buildCharacteristics_id_shape rest (i + 1) c hc
      have hcnt : i = n := by
        apply instanceId_eq_counter_eq svc svc' i n
        rw [← hid]
        exact heq
      omega

/-- Claim C10: every constructed `Characteristic` gets
`serviceInstanceId ++ "." ++ <current counter>` as its instance id, the
module-global counter is incremented on each construction, and therefore any
two characteristics constructed in one process history (starting from the
initial counter value 1) have distinct instance ids, whatever their service
ids, uuids, properties and values. -/
theorem C10_characteristic_instance_ids_distinct :
    (∀ (α β : Type) (i : Nat) (svc u : String) (p : α) (v : β),
      (mkCharacteristic i svc u p v).1._instanceId = svc ++ "." ++ natToString i ∧
      (mkCharacteristic i svc u p v).2 = i + 1) ∧
    (∀ (α β : Type) (reqs : List (String × String × α × β)),
      (buildCharacteristics reqs characteristicCounterInit).Pairwise
        (fun c1 c2 => c1._instanceId ≠ c2._instanceId)) :=
  ⟨fun _ _ i svc u p v => ⟨rfl, rfl⟩,
   fun _ _ reqs => buildCharacteristics_pairwise reqs characteristicCounterInit⟩

example : seggerExec "680123456" = some '0' := by decide
example : seggerExec "683999999" = some '3' := by decide
example : seggerExec "abc682123456" = some '2' := by decide
example : seggerExec "undefined" = none := by decide
example : seggerExec "689123456" = none := by decide
example : seggerExec "68012345" = none := by decide
example : classifyOk ⟨some "680123456", none, none⟩ = true := by decide
example : classifyOk ⟨none, some "COM3", none⟩ = false := by decide
example : classifyOk ⟨none, none, none⟩ = false := by decide

example :
    (updateAdapterList "linux" initialFactoryState
        (.ok [⟨some "680123456", none, none⟩]) false).state.adapters =
      [("680123456", ⟨"v2", some "680123456", none, some "680123456", none, 0⟩)] := by
  decide

example :
    (updateAdapterList "linux"
        { adapters := [("680123456", ⟨"v2", some "680123456", none, some "680123456", none, 0⟩)]
          alloc := 1, openedSubs := [0], closedSubs := [0] }
        (.ok []) false) =
      { state := { adapters := [], alloc := 1, openedSubs := [], closedSubs := [0] }
        events := [.removed ⟨"v2", some "680123456", none, some "680123456", none, 0⟩]
        callbacks := []
        aborted := false } := by
  decide

example :
    (updateAdapterList "linux" initialFactoryState
        (.ok [⟨some "680123456", none, none⟩, ⟨none, none, none⟩]) true).aborted = true := by
  decide

end PcBleDriver
